import Mathlib

/-!
Verification of the solid-permissions access-control engine.

The development shallowly embeds the JavaScript sources:
  * `permission.js`  — the `Permission` class (one grant),
  * `group-listing.js` — the `GroupListing` class,
  * `permission-set.js` — the `PermissionSet` class with `checkAccess`.

JavaScript objects (string-keyed hashmaps in insertion order) are modelled as
association lists; JS heap references are modelled by a store of numbered
permission objects, so that the aliasing between the `authorizations`
collection and the `authsBy` indexes is represented faithfully.  Falsy JS
values (`undefined`, `null`, `""`) are modelled with `Option String` plus
explicit truthiness tests.
-/

namespace SolidPerms

/-- Association-list representation of a JS object: keys in insertion order. -/
abbrev JsObj (κ : Type) (α : Type) := List (κ × α)

/-- JS property read `o[k]`: first binding wins (real JS objects never hold a
duplicate key, and every map built by the operations below is duplicate-free). -/
def aGet [DecidableEq κ] : JsObj κ α → κ → Option α
  | [], _ => none
  | (k', v) :: rest, k => if k' = k then some v else aGet rest k

/-- JS property write `o[k] = v`: updates an existing binding in place
(keeping its position, as JS does) or appends a new one. -/
def aSet [DecidableEq κ] : JsObj κ α → κ → α → JsObj κ α
  | [], k, v => [(k, v)]
  | (k', v') :: rest, k, v =>
      if k' = k then (k', v) :: rest else (k', v') :: aSet rest k v

/-- JS `delete o[k]`. -/
def aDel [DecidableEq κ] : JsObj κ α → κ → JsObj κ α
  | [], _ => []
  | (k', v') :: rest, k => if k' = k then rest else (k', v') :: aDel rest k

/-- JS `Object.keys(o)` (insertion order). -/
def aKeys (o : JsObj κ α) : List κ := o.map Prod.fst

/-- JS truthiness of a string-or-absent value (`undefined`, `null` and `""`
are falsy). -/
def truthy : Option String → Bool
  | none => false
  | some s => !s.isEmpty

/-- JS `a || b` on string-or-absent values. -/
def jsOr (a b : Option String) : Option String :=
  if truthy a then a else b

/-- JS coercion of a possibly-`null` string to a property key / concatenand. -/
def jsStrOrNull : Option String → String
  | none => "null"
  | some s => s

/-- JS coercion of a possibly-`undefined` string to a property key. -/
def jsStrOrUndef : Option String → String
  | none => "undefined"
  | some s => s

/-- Character-list test used to model JS `String.prototype.startsWith`. -/
def listLeads : List Char → List Char → Bool
  | [], _ => true
  | _ :: _, [] => false
  | a :: as, b :: bs => a = b && listLeads as bs

/-- JS `s.startsWith(p)`. -/
def jsStartsWith (s p : String) : Bool := listLeads p.data s.data

/-- Character-list test used to model JS `String.prototype.endsWith`. -/
def jsEndsWith (s p : String) : Bool := listLeads p.data.reverse s.data.reverse

/-- Lexicographic comparison of char lists by code point: the comparator of
the default JS `Array.prototype.sort` on strings. -/
def lexLe : List Char → List Char → Bool
  | [], _ => true
  | _ :: _, [] => false
  | a :: as, b :: bs =>
      if a.toNat < b.toNat then true
      else if b.toNat < a.toNat then false
      else lexLe as bs

/-- JS default string comparison `a <= b`. -/
def jsLe (a b : String) : Bool := lexLe a.data b.data

/-- Ordered insertion used to model JS `Array.prototype.sort()`. -/
def insertLe (x : String) : List String → List String
  | [] => [x]
  | y :: ys => if jsLe x y then x :: y :: ys else y :: insertLe x ys

/-- JS `array.sort()` (default string comparator, ascending). -/
def sortJs (l : List String) : List String := l.foldr insertLe []

/-- JS `s.toUpperCase()` (character-wise, structural). -/
def jsToUpper (s : String) : String := String.mk (s.data.map Char.toUpper)

/-- Characters before the first `':'`. -/
def beforeColon : List Char → List Char
  | [] => []
  | c :: cs => if c = ':' then [] else c :: beforeColon cs

/-- Characters after the first `':'`. -/
def afterColon : List Char → List Char
  | [] => []
  | c :: cs => if c = ':' then cs else afterColon cs

/-- JS `s.split(':')[1]`: the text between the first and the second colon. -/
def splitColonSecond (s : String) : String := String.mk (beforeColon (afterColon s.data))

/- Constants of the `modes.js` module (`solid-namespace` URIs). -/
namespace aclC

def READ : String := "http://www.w3.org/ns/auth/acl#Read"

def WRITE : String := "http://www.w3.org/ns/auth/acl#Write"

def APPEND : String := "http://www.w3.org/ns/auth/acl#Append"

def CONTROL : String := "http://www.w3.org/ns/auth/acl#Control"

def EVERYONE : String := "http://xmlns.com/foaf/0.1/Agent"

def ALL_MODES : List String := [READ, WRITE, CONTROL]

def ACCESS_TO : String := "accessTo"

def DEFAULT : String := "default"

end aclC

/-- `permission.js`: the `Permission` class.  Field-for-field translation of
the constructor's properties; `agent`, `group` and `resourceUrl` are nullable
strings. -/
structure Permission where
  accessModes : JsObj String Bool
  accessType : String
  agent : Option String
  group : Option String
  inherited : Bool
  mailTo : List String
  originsAllowed : JsObj String Bool
  resourceUrl : Option String
  virtual : Bool
deriving DecidableEq, Repr

/-- `new Permission(resourceUrl, inherited)`. -/
def Permission.make (resourceUrl : Option String) (inherited : Bool) : Permission :=
  { accessModes := []
    accessType := if inherited then aclC.DEFAULT else aclC.ACCESS_TO
    agent := none
    group := none
    inherited := inherited
    mailTo := []
    originsAllowed := []
    resourceUrl := resourceUrl
    virtual := false }

/-- `addModeSingle(accessMode)` (string form; the RDF-statement form only
unwraps the statement to its string first). -/
def Permission.addModeSingle (p : Permission) (accessMode : String) : Permission :=
  { p with accessModes := aSet p.accessModes accessMode true }

/-- `addMode(accessMode)` for the array form (`forEach addModeSingle`);
callers with a single mode pass a one-element list. -/
def Permission.addMode (p : Permission) (accessModes : List String) : Permission :=
  accessModes.foldl Permission.addModeSingle p

/-- `removeModeSingle(accessMode)` (string form). -/
def Permission.removeModeSingle (p : Permission) (accessMode : String) : Permission :=
  { p with accessModes := aDel p.accessModes accessMode }

/-- `removeMode(accessMode)` for the array form. -/
def Permission.removeMode (p : Permission) (accessModes : List String) : Permission :=
  accessModes.foldl Permission.removeModeSingle p

/-- `addOriginSingle(origin)` (string form). -/
def Permission.addOriginSingle (p : Permission) (origin : String) : Permission :=
  { p with originsAllowed := aSet p.originsAllowed origin true }

/-- `addOrigin(origin)` for the array form. -/
def Permission.addOrigin (p : Permission) (origins : List String) : Permission :=
  origins.foldl Permission.addOriginSingle p

/-- `allModes()`. -/
def Permission.allModes (p : Permission) : List String := aKeys p.accessModes

/-- `allOrigins()`. -/
def Permission.allOrigins (p : Permission) : List String := aKeys p.originsAllowed

/-- `addMailTo(agent)` (string form): strips the scheme, pushes, sorts. -/
def Permission.addMailTo (p : Permission) (agent : String) : Permission :=
  let a := if jsStartsWith agent "mailto:" then splitColonSecond agent else agent
  { p with mailTo := sortJs (p.mailTo ++ [a]) }

/-- `allowsOrigin(origin)`: `origin in this.originsAllowed`. -/
def Permission.allowsOrigin (p : Permission) (origin : String) : Bool :=
  (aGet p.originsAllowed origin).isSome

/-- `allowsRead()`. -/
def Permission.allowsRead (p : Permission) : Bool :=
  (aGet p.accessModes aclC.READ).getD false

/-- `allowsWrite()`. -/
def Permission.allowsWrite (p : Permission) : Bool :=
  (aGet p.accessModes aclC.WRITE).getD false

/-- `allowsAppend()`: Append is granted when either Append or Write is
present. -/
def Permission.allowsAppend (p : Permission) : Bool :=
  (aGet p.accessModes aclC.APPEND).getD false
    || (aGet p.accessModes aclC.WRITE).getD false

/-- `allowsControl()`. -/
def Permission.allowsControl (p : Permission) : Bool :=
  (aGet p.accessModes aclC.CONTROL).getD false

/-- `acl[accessMode.toUpperCase()] || accessMode`, the normalisation at the
top of `allowsMode` — restricted to the string-valued keys of the `acl`
constants object (its array/boolean-valued keys are never meaningful access
modes). -/
def normalizeMode (accessMode : String) : String :=
  let u := jsToUpper accessMode
  if u = "READ" then aclC.READ
  else if u = "WRITE" then aclC.WRITE
  else if u = "APPEND" then aclC.APPEND
  else if u = "CONTROL" then aclC.CONTROL
  else if u = "EVERYONE" then aclC.EVERYONE
  else if u = "ACCESS_TO" then aclC.ACCESS_TO
  else if u = "DEFAULT" then aclC.DEFAULT
  else accessMode

/-- `allowsMode(accessMode)`: normalise, special-case Append, else a straight
hashmap read. -/
def Permission.allowsMode (p : Permission) (accessMode : String) : Bool :=
  let m := normalizeMode accessMode
  if m = aclC.APPEND then p.allowsAppend
  else (aGet p.accessModes m).getD false

/-- `webId()`: `this.agent || this.group`. -/
def Permission.webId (p : Permission) : Option String := jsOr p.agent p.group

/-- `isAgent()` (truthiness of the returned value). -/
def Permission.isAgent (p : Permission) : Bool := truthy p.agent

/-- `isGroup()` (truthiness of the returned value). -/
def Permission.isGroup (p : Permission) : Bool := truthy p.group

/-- `isPublic()`: `this.group === acl.EVERYONE`. -/
def Permission.isPublic (p : Permission) : Bool := p.group = some aclC.EVERYONE

/-- `isEmpty()`. -/
def Permission.isEmpty (p : Permission) : Bool := aKeys p.accessModes |>.isEmpty

/-- `isInherited()`. -/
def Permission.isInherited (p : Permission) : Bool := p.inherited

/-- `isValid()`. -/
def Permission.isValid (p : Permission) : Bool :=
  truthy p.webId && truthy p.resourceUrl && !p.isEmpty

/-- `clone()`: `JSON` round trip, i.e. a value-identical fresh object (object
identity is handled at the allocation sites of the permission-set model). -/
def Permission.clone (p : Permission) : Permission := p

/-- The standalone `hashFragmentFor(webId, resourceUrl, authType)`. -/
def hashFragmentFor (webId resourceUrl authType : String) : String :=
  webId ++ "-" ++ resourceUrl ++ "-" ++ authType

/-- `hashFragment()`.  The source guard reads
`if (!this.webId || !this.resourceUrl)`; `this.webId` there is the method
object itself, not a call, and a JS function is always truthy, so only the
`resourceUrl` conjunct can ever fire.  A permission with a `resourceUrl` but
no principal therefore produces a key with the coerced string `"null"`. -/
def Permission.hashFragment (p : Permission) : Except String String :=
  if truthy p.resourceUrl then
    Except.ok (hashFragmentFor (jsStrOrNull p.webId) (p.resourceUrl.getD "") p.accessType)
  else
    Except.error "Cannot call hashFragment() on an incomplete permission"

/-- `mergeWith(auth)`: identity keys must agree, then every key of the other
permission's mode map is added via `addMode`. -/
def Permission.mergeWith (p q : Permission) : Except String Permission :=
  match p.hashFragment with
  | Except.error e => Except.error e
  | Except.ok hp =>
      match q.hashFragment with
      | Except.error e => Except.error e
      | Except.ok hq =>
          if hp ≠ hq then
            Except.error "Cannot merge permissions with different agent id or resource url (accessTo)"
          else
            Except.ok ((aKeys q.accessModes).foldl Permission.addModeSingle p)

/-- `setGroup(group)` (string form; the `GroupListing`/RDF branches only
unwrap their argument to a string first). -/
def Permission.setGroup (p : Permission) (group : String) : Except String Permission :=
  if truthy p.agent then
    Except.error "Cannot set group, permission already has an agent set"
  else
    Except.ok { p with group := some group }

/-- `setPublic()`. -/
def Permission.setPublic (p : Permission) : Except String Permission :=
  p.setGroup aclC.EVERYONE

/-- `setAgent(agent)` (string form).  Mirrors the source's control flow: the
reserved everyone id routes through `setPublic()` and — since execution then
falls through — additionally assigns `this.agent`; any other id throws when a
group is already set; `mailto:` ids are captured as aliases instead of being
assigned to `agent`. -/
def Permission.setAgent (p : Permission) (agent : String) : Except String Permission :=
  match
    (if agent = aclC.EVERYONE then p.setPublic
     else if truthy p.group then
       Except.error "Cannot set agent, permission already has a group set"
     else Except.ok p) with
  | Except.error e => Except.error e
  | Except.ok p =>
      if jsStartsWith agent "mailto:" then
        Except.ok (p.addMailTo agent)
      else
        Except.ok { p with agent := some agent }

/-- `group-listing.js`: the `GroupListing` class.  The parsed RDF graph is
represented by the data `initFromGraph` extracts from it (member web ids and
the optional `vcard:hasUID` value). -/
structure GroupListing where
  uri : Option String
  uid : Option String
  members : JsObj String Bool
  listing : Option String
deriving DecidableEq, Repr

/-- `hasMember(webId)` (string form). -/
def GroupListing.hasMember (g : GroupListing) (webId : String) : Bool :=
  (aGet g.members webId).getD false

/-- Outcome of the injected `fetchGraph(uri, options)` collaborator: either a
parsed group-listing graph (given by the member ids and uid that
`initFromGraph` would extract from it) or a rejection/parse failure. -/
inductive FetchResult where
  | graph (memberIds : List String) (uid : Option String)
  | failure (msg : String)
deriving DecidableEq, Repr

/-- The injected group fetcher. -/
abbrev FetchEnv := String → FetchResult

/-- `GroupListing.loadFrom(uri, fetchGraph, rdf, options)`: builds a listing
from the fetched graph; the `.catch` clause absorbs every fetch or parse
failure into `null`. -/
def GroupListing.loadFrom (uri : String) (fetchGraph : FetchEnv) : Option GroupListing :=
  match fetchGraph uri with
  | FetchResult.failure _ => none
  | FetchResult.graph memberIds uid =>
      some { uri := some uri
             uid := uid
             members := memberIds.foldl (fun m w => aSet m w true) []
             listing := none }

/-- Index names of `permission-set.js` (`AGENT_INDEX` / `GROUP_INDEX`). -/
def AGENT_INDEX : String := "agents"

def GROUP_INDEX : String := "groups"

def RESOURCE : String := "resource"

def CONTAINER : String := "container"

/-- A three-level `authsBy` index: `webId -> accessType -> resourceUrl -> ref`,
where the leaf holds a reference into the permission store. -/
abbrev AuthIndex := JsObj String (JsObj String (JsObj String Nat))

/-- The permission heap: JS object references modelled as numbered slots. -/
abbrev Store := JsObj Nat Permission

/-- `permission-set.js`: the `PermissionSet` class.  `authorizations` maps the
hash-fragment key to a store reference; the two `authsBy` indexes hold store
references too, so aliasing between collection and index is explicit.
`aclUrlForF` is the injected `options.aclUrlFor` (default below). -/
structure PermissionSet where
  store : Store
  authorizations : JsObj String Nat
  authsByAgents : AuthIndex
  authsByGroups : AuthIndex
  groupsCache : JsObj String GroupListing
  resourceUrl : Option String
  aclUrl : Option String
  resourceType : String
  strictOrigin : Bool
  origin : Option String
  host : Option String
  aclUrlForF : String → String

/-- `defaultIsAcl(uri)`. -/
def defaultIsAcl (uri : String) : Bool := jsEndsWith uri ".acl"

/-- `defaultAclUrlFor(resourceUri)`. -/
def defaultAclUrlFor (resourceUri : String) : String :=
  if defaultIsAcl resourceUri then resourceUri else resourceUri ++ ".acl"

/-- `new PermissionSet(resourceUrl, aclUrl, isContainer, options)` with the
default `aclUrlFor` and no graph. -/
def PermissionSet.make (resourceUrl aclUrl : Option String) (isContainer : Bool)
    (strictOrigin : Bool) (origin host : Option String) : PermissionSet :=
  { store := []
    authorizations := []
    authsByAgents := []
    authsByGroups := []
    groupsCache := []
    resourceUrl := resourceUrl
    aclUrl := aclUrl
    resourceType := if isContainer then CONTAINER else RESOURCE
    strictOrigin := strictOrigin
    origin := origin
    host := host
    aclUrlForF := defaultAclUrlFor }

/-- Read a store reference (references produced by allocation always
resolve; the default object is never reached on them). -/
def Store.get (st : Store) (i : Nat) : Permission :=
  (aGet st i).getD (Permission.make none false)

/-- Allocate a fresh reference for a permission object. -/
def Store.freshId (st : Store) : Nat :=
  (aKeys st).foldr max 0 + 1

def Store.alloc (st : Store) (p : Permission) : Nat × Store :=
  (st.freshId, aSet st st.freshId p)

/-- `isAuthInherited()`. -/
def PermissionSet.isAuthInherited (s : PermissionSet) : Bool :=
  s.resourceType = CONTAINER

/-- The body shared by `addToAgentIndex` and `addToGroupIndex`: materialise
the missing levels of `idx[webId][accessType]`, then either store the given
reference or merge the given permission into the object already referenced
at `idx[webId][accessType][resourceUrl]` (a heap mutation). -/
def indexInsert (idx : AuthIndex) (st : Store) (ref : Nat) :
    Except String (AuthIndex × Store) :=
  let p := st.get ref
  let webId := jsStrOrNull p.webId
  let rKey := jsStrOrUndef p.resourceUrl
  let m1 := (aGet idx webId).getD []
  let m2 := (aGet m1 p.accessType).getD []
  match aGet m2 rKey with
  | none =>
      Except.ok (aSet idx webId (aSet m1 p.accessType (aSet m2 rKey ref)), st)
  | some sid =>
      match (st.get sid).mergeWith p with
      | Except.error e => Except.error e
      | Except.ok merged => Except.ok (idx, aSet st sid merged)

/-- `addAuthorization(auth)`, fuelled to account for the single recursive call
made through `addControlPermissionsFor` (the synthesized permission is always
virtual, so the recursion never goes deeper and the fuel-exhausted branch is
unreachable from `addAuthorization` below). -/
def addAuthIndexSteps (s : PermissionSet) (auth : Permission) (ref : Nat) :
    Except String PermissionSet :=
  -- `addToAgentIndex(auth)`
  match indexInsert s.authsByAgents s.store ref with
  | Except.error e => Except.error e
  | Except.ok (agentsIdx, st) =>
      let s := { s with authsByAgents := agentsIdx, store := st }
      -- `if (auth.isPublic() || auth.isGroup()) addToGroupIndex(auth)`
      if auth.isPublic || auth.isGroup then
        match indexInsert s.authsByGroups s.store ref with
        | Except.error e => Except.error e
        | Except.ok (groupsIdx, st) =>
            Except.ok { s with authsByGroups := groupsIdx, store := st }
      else
        Except.ok s

def addAuthorizationF : Nat → PermissionSet → Permission → Except String PermissionSet
  | 0, _, _ => Except.error "unreachable recursion bound"
  | fuel + 1, s, auth =>
      match auth.hashFragment with
      | Except.error e => Except.error e
      | Except.ok h =>
          -- the argument is a fresh JS object: give it a reference of its own
          let (ref, st) := s.store.alloc auth
          let s := { s with store := st }
          -- merge into the collection, or insert
          let merged :=
            match aGet s.authorizations h with
            | some cid =>
                match (s.store.get cid).mergeWith auth with
                | Except.error e => Except.error e
                | Except.ok m => Except.ok { s with store := aSet s.store cid m }
            | none =>
                Except.ok { s with authorizations := aSet s.authorizations h ref }
          match merged with
          | Except.error e => Except.error e
          | Except.ok s =>
              -- `addControlPermissionsFor(auth)`
              let controlled :=
                if !auth.virtual && auth.allowsControl then
                  let implied :=
                    ({ auth.clone with
                        resourceUrl := some (s.aclUrlForF (auth.resourceUrl.getD ""))
                        virtual := true }).addMode aclC.ALL_MODES
                  addAuthorizationF fuel s implied
                else Except.ok s
              match controlled with
              | Except.error e => Except.error e
              | Except.ok s => addAuthIndexSteps s auth ref

def PermissionSet.addAuthorization (s : PermissionSet) (auth : Permission) :
    Except String PermissionSet :=
  addAuthorizationF 2 s auth

/-- `addPermission(webId, accessMode, origin)`.  The access modes and origins
are given in their array forms (arrays are truthy in JS, so only the `webId`
argument is guarded; an absent `origin` argument and an empty origin array
yield the same permission). -/
def PermissionSet.addPermission (s : PermissionSet) (webId : String)
    (accessModes : List String) (origins : List String) :
    Except String PermissionSet :=
  if webId.isEmpty then
    Except.error "addPermission() requires a valid webId"
  else if !truthy s.resourceUrl then
    Except.error "Cannot add a permission to a PermissionSet with no resourceUrl"
  else
    match (Permission.make s.resourceUrl s.isAuthInherited).setAgent webId with
    | Except.error e => Except.error e
    | Except.ok auth =>
        s.addAuthorization ((auth.addMode accessModes).addOrigin origins)

/-- `addGroupPermission(webId, accessMode)`. -/
def PermissionSet.addGroupPermission (s : PermissionSet) (webId : String)
    (accessModes : List String) : Except String PermissionSet :=
  if !truthy s.resourceUrl then
    Except.error "Cannot add a permission to a PermissionSet with no resourceUrl"
  else
    match (Permission.make s.resourceUrl s.isAuthInherited).setGroup webId with
    | Except.error e => Except.error e
    | Except.ok auth => s.addAuthorization (auth.addMode accessModes)

/-- `findAuthByAgent(webId, resourceUrl, indexType)`: exact `accessTo` match
first; otherwise an exact `default` match, then the longest-container scan
over the `default` keys sorted in reverse alphabetical order. -/
def PermissionSet.findAuthByAgent (s : PermissionSet) (webId resourceUrl : String)
    (indexType : String) : Option Nat :=
  let index := if indexType = GROUP_INDEX then s.authsByGroups else s.authsByAgents
  match aGet index webId with
  | none => none
  | some byType =>
      let accessToMatch := (aGet byType aclC.ACCESS_TO).bind (fun m => aGet m resourceUrl)
      match accessToMatch with
      | some i => some i
      | none =>
          match aGet byType aclC.DEFAULT with
          | none => none
          | some defaultAuths =>
              match aGet defaultAuths resourceUrl with
              | some i => some i
              | none =>
                  let containers := (sortJs (aKeys defaultAuths)).reverse
                  (containers.find? (fun c => jsStartsWith resourceUrl c)).bind
                    (fun c => aGet defaultAuths c)

/-- `findPublicAuth(resourceUrl)`. -/
def PermissionSet.findPublicAuth (s : PermissionSet) (resourceUrl : String) : Option Nat :=
  s.findAuthByAgent aclC.EVERYONE resourceUrl GROUP_INDEX

/-- `allowsPublic(mode, resourceUrl)` (no origin check in this code path). -/
def PermissionSet.allowsPublic (s : PermissionSet) (mode resourceUrl : String) : Bool :=
  let r := if truthy (some resourceUrl) then resourceUrl else jsStrOrUndef s.resourceUrl
  match s.findPublicAuth r with
  | none => false
  | some i => (s.store.get i).allowsMode mode

/-- The guard of `checkOrigin`: enforcement off, no request origin, or the
origin equals the host (same origin is trusted). -/
def PermissionSet.originTrivial (s : PermissionSet) : Bool :=
  !s.strictOrigin || !truthy s.origin || s.origin = s.host

/-- `checkOrigin(authorization)`. -/
def PermissionSet.checkOrigin (s : PermissionSet) (p : Permission) : Bool :=
  if s.originTrivial then true
  else p.allowsOrigin (s.origin.getD "")

/-- `checkAccessForAgent(resourceUrl, agentId, accessMode)`. -/
def PermissionSet.checkAccessForAgent (s : PermissionSet)
    (resourceUrl agentId accessMode : String) : Bool :=
  match s.findAuthByAgent agentId resourceUrl AGENT_INDEX with
  | none => false
  | some i => s.checkOrigin (s.store.get i) && (s.store.get i).allowsMode accessMode

/-- `groupUris(excludePublic = true)`. -/
def PermissionSet.groupUris (s : PermissionSet) : List String :=
  (aKeys s.authsByGroups).filter (fun uri => uri ≠ aclC.EVERYONE)

/-- `hasGroups()`. -/
def PermissionSet.hasGroups (s : PermissionSet) : Bool :=
  s.groupUris.length > 0

/-- The cache write performed for each loaded group:
`if (group) { this.groups[group.uri] = group }`. -/
def cacheInsert (cache : JsObj String GroupListing) (g? : Option GroupListing) :
    JsObj String GroupListing :=
  match g? with
  | some g => aSet cache (jsStrOrUndef g.uri) g
  | none => cache

/-- `loadGroups(options)`: requires the injected fetcher, loads every group
uri and caches the listings that loaded successfully (`if (group) ...`). -/
def PermissionSet.loadGroups (s : PermissionSet) (fetchGraph : Option FetchEnv) :
    Except String PermissionSet :=
  match fetchGraph with
  | none => Except.error "Cannot load groups, fetchGraph() not supplied"
  | some f =>
      let loaded := s.groupUris.map (fun uri => GroupListing.loadFrom uri f)
      Except.ok { s with groupsCache := loaded.foldl cacheInsert s.groupsCache }

/-- `groupsForMember(agentId)`. -/
def PermissionSet.groupsForMember (s : PermissionSet) (agentId : String) : List String :=
  (aKeys s.groupsCache).filter
    (fun groupWebId =>
      ((aGet s.groupsCache groupWebId).getD
        { uri := none, uid := none, members := [], listing := none }).hasMember agentId)

/-- `checkGroupAccess(resourceUrl, agentId, accessMode, options)`: the `find`
callback never returns a value, so every membership match is visited and the
result is true when any of them passes `checkAccessForAgent`. -/
def PermissionSet.checkGroupAccess (s : PermissionSet)
    (resourceUrl agentId accessMode : String) : Bool :=
  (s.groupsForMember agentId).any
    (fun groupWebId => s.checkAccessForAgent resourceUrl groupWebId accessMode)

/-- `checkAccess(resourceUrl, agentId, accessMode, options)`: public check,
then individual check, then (only when group grants exist) group loading and
the group check.  The promise value is the boolean paired with the state the
call leaves behind. -/
def PermissionSet.checkAccess (s : PermissionSet)
    (resourceUrl agentId accessMode : String) (fetchGraph : Option FetchEnv) :
    Except String (Bool × PermissionSet) :=
  if s.allowsPublic accessMode resourceUrl then
    Except.ok (true, s)
  else if s.checkAccessForAgent resourceUrl agentId accessMode then
    Except.ok (true, s)
  else if s.hasGroups then
    match s.loadGroups fetchGraph with
    | Except.error e => Except.error e
    | Except.ok s' => Except.ok (s'.checkGroupAccess resourceUrl agentId accessMode, s')
  else
    Except.ok (false, s)

/-- `permissionFor(webId, resourceUrl)` as called by `removePermission` (the
two-argument `hashFragmentFor`, whose access type defaults to `accessTo`). -/
def PermissionSet.permissionFor (s : PermissionSet) (webId : String)
    (resourceUrl : Option String) : Option Nat :=
  if webId.isEmpty then none
  else
    aGet s.authorizations
      (hashFragmentFor webId (jsStrOrUndef (jsOr resourceUrl s.resourceUrl)) aclC.ACCESS_TO)

/-- `removeAuthorization(auth)`: deletes from the `authorizations` collection
only — the `authsBy` indexes are left untouched by the source. -/
def PermissionSet.removeAuthorization (s : PermissionSet) (ref : Nat) :
    Except String PermissionSet :=
  match (s.store.get ref).hashFragment with
  | Except.error e => Except.error e
  | Except.ok h => Except.ok { s with authorizations := aDel s.authorizations h }

/-- `removePermission(webId, accessMode)`. -/
def PermissionSet.removePermission (s : PermissionSet) (webId : String)
    (accessModes : List String) : Except String PermissionSet :=
  match s.permissionFor webId s.resourceUrl with
  | none => Except.ok s
  | some ref =>
      let mutated := (s.store.get ref).removeMode accessModes
      let s := { s with store := aSet s.store ref mutated }
      if mutated.isEmpty then s.removeAuthorization ref
      else Except.ok s

/-! ### Association-list (JS object) lemmas -/

theorem aGet_aSet_self [DecidableEq κ] (m : JsObj κ α) (k : κ) (v : α) :
    aGet (aSet m k v) k = some v := by
  induction m with
  | nil => simp [aSet, aGet]
  | cons e rest ih =>
      obtain ⟨k', v'⟩ := e
      by_cases h : k' = k <;> simp [aSet, aGet, h, ih]

theorem aGet_aSet_ne [DecidableEq κ] (m : JsObj κ α) (k j : κ) (v : α)
    (h : j ≠ k) : aGet (aSet m k v) j = aGet m j := by
  have h' : ¬ k = j := fun hh => h hh.symm
  induction m with
  | nil => simp [aSet, aGet, h']
  | cons e rest ih =>
      obtain ⟨k', v'⟩ := e
      by_cases hk : k' = k
      · subst hk
        simp [aSet, aGet, h']
      · by_cases hj : k' = j <;> simp [aSet, aGet, hk, hj, ih, h]

theorem aSet_of_aGet_eq [DecidableEq κ] (m : JsObj κ α) (k : κ) (v : α)
    (h : aGet m k = some v) : aSet m k v = m := by
  induction m with
  | nil => simp [aGet] at h
  | cons e rest ih =>
      obtain ⟨k', v'⟩ := e
      by_cases hk : k' = k
      · subst hk
        simp [aGet] at h
        simp [aSet, h]
      · simp [aGet, hk] at h
        simp [aSet, hk, ih h]

theorem aDel_of_aGet_none [DecidableEq κ] (m : JsObj κ α) (k : κ)
    (h : aGet m k = none) : aDel m k = m := by
  induction m with
  | nil => simp [aDel]
  | cons e rest ih =>
      obtain ⟨k', v'⟩ := e
      by_cases hk : k' = k
      · simp [aGet, hk] at h
      · simp [aGet, hk] at h
        simp [aDel, hk, ih h]

theorem aGet_aDel_ne [DecidableEq κ] (m : JsObj κ α) (k j : κ)
    (h : j ≠ k) : aGet (aDel m k) j = aGet m j := by
  have h' : ¬ k = j := fun hh => h hh.symm
  induction m with
  | nil => simp [aDel]
  | cons e rest ih =>
      obtain ⟨k', v'⟩ := e
      by_cases hk : k' = k
      · subst hk
        simp [aDel, aGet, h']
      · by_cases hj : k' = j <;> simp [aDel, aGet, hk, hj, ih, h]

theorem mem_aKeys_iff [DecidableEq κ] (m : JsObj κ α) (k : κ) :
    k ∈ aKeys m ↔ (aGet m k).isSome := by
  induction m with
  | nil => simp [aKeys, aGet]
  | cons e rest ih =>
      obtain ⟨k', v'⟩ := e
      by_cases hk : k' = k
      · subst hk
        simp [aKeys, aGet]
      · have hk' : ¬ k = k' := fun hh => hk hh.symm
        simp [aKeys, aGet, hk, hk'] at ih ⊢
        exact ih

/-! ### Mode-map lemmas for `addMode` folds -/

theorem foldl_addModeSingle_accessModes (l : List String) (p : Permission)
    (k : String) :
    aGet (l.foldl Permission.addModeSingle p).accessModes k =
      if k ∈ l then some true else aGet p.accessModes k := by
  induction l generalizing p with
  | nil => simp
  | cons a as ih =>
      by_cases hka : k = a
      · subst hka
        by_cases hmem : k ∈ as <;>
          simp [List.foldl_cons, ih, hmem, Permission.addModeSingle, aGet_aSet_self]
      · by_cases hmem : k ∈ as <;>
          simp [List.foldl_cons, ih, hmem, hka, Permission.addModeSingle,
            aGet_aSet_ne _ _ _ _ hka]

theorem foldl_addModeSingle_frame (l : List String) (p : Permission) :
    ∃ am, l.foldl Permission.addModeSingle p = { p with accessModes := am } := by
  induction l generalizing p with
  | nil => exact ⟨p.accessModes, rfl⟩
  | cons a as ih =>
      obtain ⟨am, ham⟩ := ih (p.addModeSingle a)
      exact ⟨am, by simpa [Permission.addModeSingle] using ham⟩

theorem foldl_addModeSingle_of_all_present (l : List String) (p : Permission)
    (h : ∀ k ∈ l, aGet p.accessModes k = some true) :
    l.foldl Permission.addModeSingle p = p := by
  induction l generalizing p with
  | nil => rfl
  | cons a as ih =>
      have hp : p.addModeSingle a = p := by
        have := aSet_of_aGet_eq p.accessModes a true (h a (by simp))
        simp [Permission.addModeSingle, this]
      rw [List.foldl_cons, hp]
      exact ih p (fun k hk => h k (by simp [hk]))

theorem hashFragment_frame (p : Permission) (am : JsObj String Bool) :
    Permission.hashFragment { p with accessModes := am } = p.hashFragment := by
  simp [Permission.hashFragment, Permission.webId]

/-! ### Claim C5 — Write implies Append -/

/-- C5: adding Write makes `allowsAppend()` true even without Append; adding
Append alone leaves `allowsWrite()` as it was; removing Write from a
permission that never had Write is a no-op (Append stays); removing Append
while Write remains leaves both `allowsWrite()` and `allowsAppend()` true. -/
theorem claim_C5_write_implies_append (p : Permission)
    (hNoWrite : aGet p.accessModes aclC.WRITE = none)
    (q : Permission) (hqWrite : aGet q.accessModes aclC.WRITE = some true) :
    (p.addModeSingle aclC.WRITE).allowsAppend = true
    ∧ (p.addModeSingle aclC.APPEND).allowsWrite = p.allowsWrite
    ∧ p.removeModeSingle aclC.WRITE = p
    ∧ (q.removeModeSingle aclC.APPEND).allowsWrite = true
    ∧ (q.removeModeSingle aclC.APPEND).allowsAppend = true := by
  refine ⟨?_, ?_, ?_, ?_, ?_⟩
  · simp [Permission.allowsAppend, Permission.addModeSingle, aGet_aSet_self]
  · have hne : aclC.WRITE ≠ aclC.APPEND := by decide
    simp [Permission.allowsWrite, Permission.addModeSingle,
      aGet_aSet_ne _ _ _ _ hne]
  · have := aDel_of_aGet_none p.accessModes aclC.WRITE hNoWrite
    simp [Permission.removeModeSingle, this]
  · have hne : aclC.WRITE ≠ aclC.APPEND := by decide
    simp [Permission.allowsWrite, Permission.removeModeSingle,
      aGet_aDel_ne _ _ _ hne, hqWrite]
  · have hne : aclC.WRITE ≠ aclC.APPEND := by decide
    simp [Permission.allowsAppend, Permission.removeModeSingle,
      aGet_aDel_ne _ _ _ hne, hqWrite]

/-- Witness for C5 at concrete permissions: `p` holds only Append, `q` holds
Write. -/
theorem claim_C5_witness :
    (aGet ((Permission.make (some "https://example.com/file1") false).addModeSingle
        aclC.APPEND).accessModes aclC.WRITE = none)
    ∧ (((Permission.make (some "https://example.com/file1") false).addModeSingle
        aclC.APPEND).addModeSingle aclC.WRITE).allowsAppend = true := by
  refine ⟨by decide, ?_⟩
  exact (claim_C5_write_implies_append
    ((Permission.make (some "https://example.com/file1") false).addModeSingle aclC.APPEND)
    (by decide)
    ((Permission.make (some "https://example.com/file1") false).addModeSingle aclC.WRITE)
    (by decide)).1

/-! ### Claim C6 — mergeWith is mode-set union, idempotent, frame-preserving -/

/-- C6: for permissions with the same identity key, `mergeWith` succeeds, the
resulting mode set is the union of the two original mode sets, merging the
same permission again changes nothing, and the principal, resource URL and
inheritance flag are untouched. -/
theorem claim_C6_mergeWith_union_idempotent (p q : Permission) (h : String)
    (hp : p.hashFragment = Except.ok h) (hq : q.hashFragment = Except.ok h) :
    ∃ r, p.mergeWith q = Except.ok r
      ∧ (∀ m, (aGet r.accessModes m).isSome ↔
          ((aGet p.accessModes m).isSome ∨ (aGet q.accessModes m).isSome))
      ∧ r.mergeWith q = Except.ok r
      ∧ r.agent = p.agent ∧ r.group = p.group
      ∧ r.resourceUrl = p.resourceUrl ∧ r.inherited = p.inherited := by
  set r := (aKeys q.accessModes).foldl Permission.addModeSingle p with hr
  obtain ⟨am, ham⟩ := foldl_addModeSingle_frame (aKeys q.accessModes) p
  have hmerge : p.mergeWith q = Except.ok r := by
    simp [Permission.mergeWith, hp, hq, hr]
  have hget : ∀ m, aGet r.accessModes m =
      if m ∈ aKeys q.accessModes then some true else aGet p.accessModes m :=
    fun m => foldl_addModeSingle_accessModes _ _ _
  refine ⟨r, hmerge, ?_, ?_, ?_, ?_, ?_, ?_⟩
  · intro m
    rw [hget m]
    by_cases hm : m ∈ aKeys q.accessModes
    · simp [hm, (mem_aKeys_iff q.accessModes m).mp hm]
    · have : ¬ (aGet q.accessModes m).isSome := fun hc =>
        hm ((mem_aKeys_iff q.accessModes m).mpr hc)
      simp [hm, this]
  · have hrh : r.hashFragment = Except.ok h := by
      rw [hr, ham, hashFragment_frame, hp]
    have hall : ∀ k ∈ aKeys q.accessModes, aGet r.accessModes k = some true := by
      intro k hk
      rw [hget k]
      simp [hk]
    simp [Permission.mergeWith, hrh, hq,
      foldl_addModeSingle_of_all_present _ _ hall]
  · rw [hr, ham]
  · rw [hr, ham]
  · rw [hr, ham]
  · rw [hr, ham]

/-- Witness for C6 at concrete permissions: same agent, resource and access
type, different modes. -/
theorem claim_C6_witness :
    (Permission.hashFragment
      { Permission.make (some "https://example.com/file1") false with
          agent := some "https://alice.example.com/#me",
          accessModes := [(aclC.READ, true)] } =
        Except.ok "https://alice.example.com/#me-https://example.com/file1-accessTo")
    ∧ ∃ r, Permission.mergeWith
        { Permission.make (some "https://example.com/file1") false with
            agent := some "https://alice.example.com/#me",
            accessModes := [(aclC.READ, true)] }
        { Permission.make (some "https://example.com/file1") false with
            agent := some "https://alice.example.com/#me",
            accessModes := [(aclC.WRITE, true)] }
      = Except.ok r := by
  refine ⟨rfl, ?_⟩
  obtain ⟨r, hmerge, -⟩ := claim_C6_mergeWith_union_idempotent
    { Permission.make (some "https://example.com/file1") false with
        agent := some "https://alice.example.com/#me",
        accessModes := [(aclC.READ, true)] }
    { Permission.make (some "https://example.com/file1") false with
        agent := some "https://alice.example.com/#me",
        accessModes := [(aclC.WRITE, true)] }
    "https://alice.example.com/#me-https://example.com/file1-accessTo"
    rfl rfl
  exact ⟨r, hmerge⟩

/-! ### Claim C8 — agent/group principal exclusivity

The source does *not* raise for the reserved everyone identifier: `setAgent`
routes it through `setPublic()`, which overwrites the group, and execution
then falls through and assigns `agent` as well. -/

/-- C8 counterexample: `setAgent` with the reserved everyone id on a
permission that already has a group principal set succeeds (and ends with
both principal fields holding the everyone id) instead of raising. -/
theorem claim_C8_counterexample :
    Permission.setAgent
      { Permission.make (some "https://example.com/file1") false with
          group := some "https://groups.example.com/work" }
      aclC.EVERYONE =
    Except.ok
      { Permission.make (some "https://example.com/file1") false with
          group := some aclC.EVERYONE, agent := some aclC.EVERYONE } := by
  rfl

/-- C8 amended: `setAgent` with any identifier other than the reserved
everyone id fails when a group principal is already set; `setGroup` always
fails when an agent principal is set; `setAgent` with the everyone id routes
through the public-grant helper instead (it succeeds whenever no agent is
set, overwriting any group principal with the everyone class). -/
theorem claim_C8_principal_exclusivity (p q r : Permission)
    (agentId groupId : String)
    (hp : truthy p.group = true) (hNotEv : agentId ≠ aclC.EVERYONE)
    (hq : truthy q.agent = true)
    (hr : truthy r.agent = false) :
    (∃ e, p.setAgent agentId = Except.error e)
    ∧ (∃ e, q.setGroup groupId = Except.error e)
    ∧ (∃ r', r.setAgent aclC.EVERYONE = Except.ok r'
        ∧ r'.group = some aclC.EVERYONE) := by
  refine ⟨?_, ?_, ?_⟩
  · exact ⟨"Cannot set agent, permission already has a group set",
      by simp [Permission.setAgent, hNotEv, hp]⟩
  · exact ⟨"Cannot set group, permission already has an agent set",
      by simp [Permission.setGroup, hq]⟩
  · have hm : jsStartsWith aclC.EVERYONE "mailto:" = false := by decide
    refine ⟨{ r with group := some aclC.EVERYONE, agent := some aclC.EVERYONE },
      ?_, rfl⟩
    simp [Permission.setAgent, Permission.setPublic, Permission.setGroup, hr, hm]

/-- Witness for C8 amended at concrete permissions. -/
theorem claim_C8_witness :
    (truthy { Permission.make (some "https://example.com/f") false with
        group := some "https://groups.example.com/work" }.group = true)
    ∧ ("https://alice.example.com/#me" ≠ aclC.EVERYONE)
    ∧ (truthy { Permission.make (some "https://example.com/f") false with
        agent := some "https://alice.example.com/#me" }.agent = true)
    ∧ (truthy (Permission.make (some "https://example.com/f") false).agent = false)
    ∧ (∃ e, Permission.setAgent
        { Permission.make (some "https://example.com/f") false with
            group := some "https://groups.example.com/work" }
        "https://alice.example.com/#me" = Except.error e) := by
  refine ⟨by decide, by decide, by decide, by decide, ?_⟩
  exact (claim_C8_principal_exclusivity
    { Permission.make (some "https://example.com/f") false with
        group := some "https://groups.example.com/work" }
    { Permission.make (some "https://example.com/f") false with
        agent := some "https://alice.example.com/#me" }
    (Permission.make (some "https://example.com/f") false)
    "https://alice.example.com/#me" "https://groups.example.com/g"
    (by decide) (by decide) (by decide) (by decide)).1

/-! ### Claim C9 — identity key of a principal-less permission

In the source the guard reads `if (!this.webId || !this.resourceUrl)`;
`this.webId` is the (always-truthy) method object, not a call, so a
permission with a resource URL but no principal does *not* throw: it yields
the key `"null-<url>-accessTo"`.  This contradicts the method's own doc
comment (`@throws {Error} Errors if either the webId or the resourceUrl are
not set.`). -/

/-- C9: a permission with a resource URL and no principal gets an identity
key (with the coerced `"null"` principal) instead of an error; only a falsy
`resourceUrl` raises. -/
theorem claim_C9_hashFragment_missing_principal :
    Permission.hashFragment (Permission.make (some "https://example.com/file1") false) =
      Except.ok "null-https://example.com/file1-accessTo"
    ∧ (∃ e, Permission.hashFragment
        { Permission.make none false with
            agent := some "https://alice.example.com/#me" } = Except.error e) := by
  exact ⟨rfl, ⟨_, rfl⟩⟩

/-! ### Claim C7 — index/collection consistency on removal

`removeAuthorization` deletes the permission from the `authorizations`
collection only; the `authsBy` indexes keep their reference to the (now
emptied) permission object.  The second half of the scenario shows this is a
real divergence: after re-adding and re-removing a mode, the collection is
empty while `checkAccess` still grants through the stale index entry. -/

/-- C7: after `removePermission` empties a permission, the collection is
empty but the by-agent index still holds the permission; re-adding Write for
the same agent merges into the stale index object, so a second
`removePermission` leaves an empty collection while `checkAccess` still
resolves to true through the index. -/
theorem claim_C7_remove_leaves_stale_index :
    (((PermissionSet.make (some "https://example.com/file1")
          (some "https://example.com/file1.acl") false false none none).addPermission
        "https://alice.example.com/#me" [aclC.READ] []).bind
      (fun s1 => (s1.removePermission "https://alice.example.com/#me" [aclC.READ]).map
        (fun s2 =>
          (s2.authorizations.isEmpty,
           (s2.findAuthByAgent "https://alice.example.com/#me"
              "https://example.com/file1" AGENT_INDEX).isSome,
           ((s2.addPermission "https://alice.example.com/#me" [aclC.WRITE] []).bind
             (fun s3 => (s3.removePermission "https://alice.example.com/#me"
                 [aclC.WRITE]).map
               (fun s4 =>
                 (s4.authorizations.isEmpty,
                  (s4.checkAccess "https://example.com/file1"
                     "https://alice.example.com/#me" aclC.WRITE none).map
                    Prod.fst))))))))
    = Except.ok (true, true, Except.ok (true, Except.ok true)) := by
  rfl

/-! ### Claim C3 — public grants ignore the origin context -/

/-- C3: `allowsPublic` is identical across any two origin-enforcement
configurations (it never consults `strictOrigin`, `origin` or `host`), and
whenever a public permission applicable to the resource allows the requested
mode, `checkAccess` resolves to true for every agent id and every fetcher,
under every origin configuration. -/
theorem claim_C3_public_ignores_origin (s : PermissionSet) (mode r : String)
    (b : Bool) (o ho : Option String) :
    (PermissionSet.allowsPublic
        { s with strictOrigin := b, origin := o, host := ho } mode r
      = s.allowsPublic mode r)
    ∧ (s.allowsPublic mode r = true →
        ∀ agentId fetchGraph,
          PermissionSet.checkAccess
            { s with strictOrigin := b, origin := o, host := ho }
            r agentId mode fetchGraph
          = Except.ok (true, { s with strictOrigin := b, origin := o, host := ho })) := by
  have hinv : PermissionSet.allowsPublic
      { s with strictOrigin := b, origin := o, host := ho } mode r
      = s.allowsPublic mode r := rfl
  refine ⟨hinv, fun hpub agentId fetchGraph => ?_⟩
  simp [PermissionSet.checkAccess, hinv, hpub]

/-- Witness for C3: a set with a public Read grant, checked under a strict
foreign-origin configuration. -/
theorem claim_C3_witness :
    (PermissionSet.allowsPublic
      { PermissionSet.make (some "https://example.com/docs/f") none false false none none with
          store := [(1, { Permission.make (some "https://example.com/docs/f") false with
            group := some aclC.EVERYONE, accessModes := [(aclC.READ, true)] })],
          authsByGroups :=
            [(aclC.EVERYONE, [(aclC.ACCESS_TO, [("https://example.com/docs/f", 1)])])] }
      aclC.READ "https://example.com/docs/f" = true)
    ∧ PermissionSet.checkAccess
        { { PermissionSet.make (some "https://example.com/docs/f") none false false none none with
              store := [(1, { Permission.make (some "https://example.com/docs/f") false with
                group := some aclC.EVERYONE, accessModes := [(aclC.READ, true)] })],
              authsByGroups :=
                [(aclC.EVERYONE, [(aclC.ACCESS_TO, [("https://example.com/docs/f", 1)])])] } with
            strictOrigin := true, origin := some "https://evil.example",
            host := some "https://example.com" }
        "https://example.com/docs/f" "https://bob.example.com/#me" aclC.READ none
      = Except.ok (true,
          { { PermissionSet.make (some "https://example.com/docs/f") none false false none none with
                store := [(1, { Permission.make (some "https://example.com/docs/f") false with
                  group := some aclC.EVERYONE, accessModes := [(aclC.READ, true)] })],
                authsByGroups :=
                  [(aclC.EVERYONE, [(aclC.ACCESS_TO, [("https://example.com/docs/f", 1)])])] } with
              strictOrigin := true, origin := some "https://evil.example",
              host := some "https://example.com" }) := by
  refine ⟨rfl, ?_⟩
  exact (claim_C3_public_ignores_origin
    { PermissionSet.make (some "https://example.com/docs/f") none false false none none with
        store := [(1, { Permission.make (some "https://example.com/docs/f") false with
          group := some aclC.EVERYONE, accessModes := [(aclC.READ, true)] })],
        authsByGroups :=
          [(aclC.EVERYONE, [(aclC.ACCESS_TO, [("https://example.com/docs/f", 1)])])] }
    aclC.READ "https://example.com/docs/f" true (some "https://evil.example")
    (some "https://example.com")).2 rfl "https://bob.example.com/#me" none

/-! ### Claim C10 — checkAccess never mutates the permission data -/

theorem cacheFold_preserves (loaded : List (Option GroupListing))
    (init : JsObj String GroupListing) (k : String)
    (h : (aGet init k).isSome) :
    (aGet (loaded.foldl cacheInsert init) k).isSome := by
  induction loaded generalizing init with
  | nil => exact h
  | cons g? rest ih =>
      rw [List.foldl_cons]
      refine ih (cacheInsert init g?) ?_
      cases g? with
      | none => exact h
      | some g =>
          by_cases hk : k = jsStrOrUndef g.uri
          · subst hk
            simp [cacheInsert, aGet_aSet_self]
          · simpa [cacheInsert, aGet_aSet_ne _ _ _ _ hk] using h

theorem cacheFold_change (loaded : List (Option GroupListing))
    (init : JsObj String GroupListing) (k : String)
    (h : aGet (loaded.foldl cacheInsert init) k ≠ aGet init k) :
    ∃ g, some g ∈ loaded ∧ jsStrOrUndef g.uri = k
      ∧ aGet (loaded.foldl cacheInsert init) k = some g := by
  induction loaded generalizing init with
  | nil => exact absurd rfl h
  | cons g? rest ih =>
      rw [List.foldl_cons] at h ⊢
      by_cases hmid : aGet (rest.foldl cacheInsert (cacheInsert init g?)) k
          = aGet (cacheInsert init g?) k
      · -- the tail did not change slot `k`: the head write must have
        rw [hmid] at h ⊢
        cases g? with
        | none => exact absurd rfl h
        | some g =>
            by_cases hk : k = jsStrOrUndef g.uri
            · subst hk
              exact ⟨g, by simp, rfl, by simp [cacheInsert, aGet_aSet_self]⟩
            · exact absurd (by simp [cacheInsert, aGet_aSet_ne _ _ _ _ hk]) h
      · obtain ⟨g, hmem, huri, hres⟩ := ih (cacheInsert init g?) hmid
        exact ⟨g, by simp [hmem], huri, hres⟩

/-- C10: whatever `checkAccess` returns, the `authorizations` collection, the
two `authsBy` indexes and the permission store are unchanged; the group cache
loses no entry, and any slot it changes was written with a successfully
loaded group listing (keyed by that listing's uri). -/
theorem claim_C10_checkAccess_frame (s : PermissionSet) (r a m : String)
    (env : Option FetchEnv) (b : Bool) (s' : PermissionSet)
    (h : s.checkAccess r a m env = Except.ok (b, s')) :
    s'.authorizations = s.authorizations
    ∧ s'.authsByAgents = s.authsByAgents
    ∧ s'.authsByGroups = s.authsByGroups
    ∧ s'.store = s.store
    ∧ (∀ k, (aGet s.groupsCache k).isSome → (aGet s'.groupsCache k).isSome)
    ∧ (∀ k, aGet s'.groupsCache k ≠ aGet s.groupsCache k →
        ∃ f g, env = some f
          ∧ some g ∈ s.groupUris.map (fun uri => GroupListing.loadFrom uri f)
          ∧ jsStrOrUndef g.uri = k
          ∧ aGet s'.groupsCache k = some g) := by
  by_cases h1 : s.allowsPublic m r
  · rw [PermissionSet.checkAccess, if_pos h1] at h
    obtain ⟨rfl, rfl⟩ : b = true ∧ s' = s := by
      cases h
      exact ⟨rfl, rfl⟩
    exact ⟨rfl, rfl, rfl, rfl, fun k hk => hk, fun k hk => absurd rfl hk⟩
  · rw [PermissionSet.checkAccess, if_neg h1] at h
    by_cases h2 : s.checkAccessForAgent r a m
    · rw [if_pos h2] at h
      obtain ⟨rfl, rfl⟩ : b = true ∧ s' = s := by
        cases h
        exact ⟨rfl, rfl⟩
      exact ⟨rfl, rfl, rfl, rfl, fun k hk => hk, fun k hk => absurd rfl hk⟩
    · rw [if_neg h2] at h
      by_cases h3 : s.hasGroups
      · rw [if_pos h3] at h
        cases env with
        | none => simp [PermissionSet.loadGroups] at h
        | some f =>
            rw [PermissionSet.loadGroups] at h
            simp only at h
            cases h
            refine ⟨rfl, rfl, rfl, rfl, ?_, ?_⟩
            · intro k hk
              exact cacheFold_preserves _ _ _ hk
            · intro k hk
              obtain ⟨g, hmem, huri, hres⟩ := cacheFold_change _ _ _ hk
              exact ⟨f, g, rfl, hmem, huri, hres⟩
      · rw [if_neg h3] at h
        obtain ⟨rfl, rfl⟩ : b = false ∧ s' = s := by
          cases h
          exact ⟨rfl, rfl⟩
        exact ⟨rfl, rfl, rfl, rfl, fun k hk => hk, fun k hk => absurd rfl hk⟩

/-- Witness for C10: a concrete `checkAccess` run on an empty set. -/
theorem claim_C10_witness :
    (PermissionSet.make (some "https://example.com/x") none false false none
        none).checkAccess "https://example.com/x" "https://a.example/#me" aclC.READ none
      = Except.ok (false, PermissionSet.make (some "https://example.com/x") none false
          false none none)
    ∧ (PermissionSet.make (some "https://example.com/x") none false false none
        none).authorizations
      = (PermissionSet.make (some "https://example.com/x") none false false none
          none).authorizations := by
  refine ⟨rfl, ?_⟩
  exact (claim_C10_checkAccess_frame
    (PermissionSet.make (some "https://example.com/x") none false false none none)
    "https://example.com/x" "https://a.example/#me" aclC.READ none false
    (PermissionSet.make (some "https://example.com/x") none false false none none)
    rfl).1

/-! ### Claim C4 — group-fetch failures are absorbed, not propagated -/

theorem loadFrom_uri (u : String) (f : FetchEnv) (g : GroupListing)
    (h : GroupListing.loadFrom u f = some g) : g.uri = some u := by
  cases hf : f u with
  | failure msg => simp [GroupListing.loadFrom, hf] at h
  | graph memberIds uid =>
      simp [GroupListing.loadFrom, hf] at h
      rw [← h]

theorem cacheFold_get_loaded (f : FetchEnv) (uris : List String)
    (init : JsObj String GroupListing) (g : String) (listing : GroupListing)
    (hload : GroupListing.loadFrom g f = some listing)
    (hg : g ∈ uris ∨ aGet init g = some listing) :
    aGet ((uris.map (fun u => GroupListing.loadFrom u f)).foldl cacheInsert init) g
      = some listing := by
  induction uris generalizing init with
  | nil =>
      cases hg with
      | inl h => cases h
      | inr h => exact h
  | cons u rest ih =>
      simp only [List.map_cons, List.foldl_cons]
      by_cases hu : u = g
      · subst hu
        refine ih (cacheInsert init (GroupListing.loadFrom u f)) (Or.inr ?_)
        have huri : jsStrOrUndef listing.uri = u := by
          rw [loadFrom_uri u f listing hload]
          rfl
        rw [hload]
        simp [cacheInsert, huri, aGet_aSet_self]
      · refine ih _ ?_
        cases hg with
        | inl hmem =>
            rcases List.mem_cons.mp hmem with rfl | hmem'
            · exact absurd rfl hu
            · exact Or.inl hmem'
        | inr hinit =>
            refine Or.inr ?_
            cases hl : GroupListing.loadFrom u f with
            | none => simpa [cacheInsert] using hinit
            | some gl =>
                have huri : jsStrOrUndef gl.uri = u := by
                  rw [loadFrom_uri u f gl hl]
                  rfl
                have hne : g ≠ u := fun hh => hu hh.symm
                rw [hl] at *
                simpa [cacheInsert, huri, aGet_aSet_ne _ _ _ _ hne] using hinit

theorem mem_groupUris_hasGroups (s : PermissionSet) (g : String)
    (h : g ∈ s.groupUris) : s.hasGroups = true := by
  have : s.groupUris ≠ [] := List.ne_nil_of_mem h
  simp [PermissionSet.hasGroups, List.length_pos]
  exact this

/-- C4: (1) `GroupListing.loadFrom` turns a fetch/parse failure into an
absent listing instead of an error; (2) an uncached (absent) group
contributes no membership matches, so it denies for that group; (3) whenever
some group grant applies (its listing loads and lists the agent, and the
group's permission passes the applicability, origin and mode checks),
`checkAccess` completes with true — no matter how the fetcher behaves on
every other group uri, so one unreachable listing never aborts the
resolution. -/
theorem claim_C4_group_fetch_failure_absorbed :
    (∀ (uri : String) (f : FetchEnv) (msg : String),
        f uri = FetchResult.failure msg → GroupListing.loadFrom uri f = none)
    ∧ (∀ (s : PermissionSet) (a k : String),
        aGet s.groupsCache k = none → k ∉ s.groupsForMember a)
    ∧ (∀ (s : PermissionSet) (r a m : String) (f : FetchEnv) (g : String)
        (listing : GroupListing),
        g ∈ s.groupUris →
        GroupListing.loadFrom g f = some listing →
        listing.hasMember a = true →
        s.checkAccessForAgent r g m = true →
        ∃ s', s.checkAccess r a m (some f) = Except.ok (true, s')) := by
  refine ⟨?_, ?_, ?_⟩
  · intro uri f msg hf
    simp [GroupListing.loadFrom, hf]
  · intro s a k hk hmem
    have := (mem_aKeys_iff s.groupsCache k).mp
      (List.mem_of_mem_filter hmem)
    rw [hk] at this
    cases this
  · intro s r a m f g listing hmem hload hmemb hgrant
    by_cases hpub : s.allowsPublic m r
    · exact ⟨s, by simp [PermissionSet.checkAccess, hpub]⟩
    · by_cases hind : s.checkAccessForAgent r a m
      · exact ⟨s, by simp [PermissionSet.checkAccess, hpub, hind]⟩
      · have hgroups := mem_groupUris_hasGroups s g hmem
        refine ⟨{ s with groupsCache :=
          ((s.groupUris.map (fun u => GroupListing.loadFrom u f)).foldl cacheInsert
            s.groupsCache) }, ?_⟩
        rw [PermissionSet.checkAccess, if_neg hpub, if_neg hind, if_pos hgroups,
          PermissionSet.loadGroups]
        simp only
        have hcache : aGet (((s.groupUris.map (fun u => GroupListing.loadFrom u f)).foldl
            cacheInsert s.groupsCache)) g = some listing :=
          cacheFold_get_loaded f s.groupUris s.groupsCache g listing hload (Or.inl hmem)
        have hforMember : g ∈ PermissionSet.groupsForMember
            { s with groupsCache :=
              ((s.groupUris.map (fun u => GroupListing.loadFrom u f)).foldl cacheInsert
                s.groupsCache) } a := by
          refine List.mem_filter.mpr ⟨?_, ?_⟩
          · exact (mem_aKeys_iff _ g).mpr (by rw [hcache]; rfl)
          · simp only [hcache]
            simpa using hmemb
        have hinv : PermissionSet.checkAccessForAgent
            { s with groupsCache :=
              ((s.groupUris.map (fun u => GroupListing.loadFrom u f)).foldl cacheInsert
                s.groupsCache) } r g m = s.checkAccessForAgent r g m := rfl
        have hany : PermissionSet.checkGroupAccess
            { s with groupsCache :=
              ((s.groupUris.map (fun u => GroupListing.loadFrom u f)).foldl cacheInsert
                s.groupsCache) } r a m = true := by
          refine List.any_eq_true.mpr ⟨g, hforMember, ?_⟩
          rw [hinv, hgrant]
        rw [hany]

/-- Witness for C4 part 3: group G1's listing is unreachable, group G2 loads
and lists Bob, who is granted Append through G2's Write grant on file2. -/
theorem claim_C4_witness :
    ("https://example.com/groups#g2" ∈
      (PermissionSet.groupUris
        { PermissionSet.make (some "https://example.com/docs/file2") none false false
            none none with
          store :=
            [(1, { Permission.make (some "https://example.com/docs/file2") false with
              group := some "https://example.com/groups#g2",
              accessModes := [(aclC.WRITE, true)] }),
             (2, { Permission.make (some "https://example.com/docs/file2") false with
              group := some "https://example.com/groups#g1",
              accessModes := [(aclC.READ, true)] })],
          authsByAgents :=
            [("https://example.com/groups#g1",
                [(aclC.ACCESS_TO, [("https://example.com/docs/file2", 2)])]),
             ("https://example.com/groups#g2",
                [(aclC.ACCESS_TO, [("https://example.com/docs/file2", 1)])])],
          authsByGroups :=
            [("https://example.com/groups#g1",
                [(aclC.ACCESS_TO, [("https://example.com/docs/file2", 2)])]),
             ("https://example.com/groups#g2",
                [(aclC.ACCESS_TO, [("https://example.com/docs/file2", 1)])])] }))
    ∧ ∃ s', PermissionSet.checkAccess
        { PermissionSet.make (some "https://example.com/docs/file2") none false false
            none none with
          store :=
            [(1, { Permission.make (some "https://example.com/docs/file2") false with
              group := some "https://example.com/groups#g2",
              accessModes := [(aclC.WRITE, true)] }),
             (2, { Permission.make (some "https://example.com/docs/file2") false with
              group := some "https://example.com/groups#g1",
              accessModes := [(aclC.READ, true)] })],
          authsByAgents :=
            [("https://example.com/groups#g1",
                [(aclC.ACCESS_TO, [("https://example.com/docs/file2", 2)])]),
             ("https://example.com/groups#g2",
                [(aclC.ACCESS_TO, [("https://example.com/docs/file2", 1)])])],
          authsByGroups :=
            [("https://example.com/groups#g1",
                [(aclC.ACCESS_TO, [("https://example.com/docs/file2", 2)])]),
             ("https://example.com/groups#g2",
                [(aclC.ACCESS_TO, [("https://example.com/docs/file2", 1)])])] }
        "https://example.com/docs/file2" "https://bob.example.com/#me" aclC.APPEND
        (some (fun u => if u = "https://example.com/groups#g2" then
            FetchResult.graph ["https://bob.example.com/#me"] none
          else FetchResult.failure "unreachable"))
      = Except.ok (true, s') := by
  refine ⟨by decide, ?_⟩
  exact (claim_C4_group_fetch_failure_absorbed.2.2
    _ "https://example.com/docs/file2" "https://bob.example.com/#me" aclC.APPEND
    (fun u => if u = "https://example.com/groups#g2" then
        FetchResult.graph ["https://bob.example.com/#me"] none
      else FetchResult.failure "unreachable")
    "https://example.com/groups#g2"
    { uri := some "https://example.com/groups#g2", uid := none,
      members := [("https://bob.example.com/#me", true)], listing := none }
    (by decide) rfl rfl rfl)

/-! ### Order lemmas for the default JS string sort -/

theorem char_eq_of_toNat_eq {a b : Char} (h : a.toNat = b.toNat) : a = b :=
  Char.eq_of_val_eq (UInt32.eq_of_val_eq (Fin.eq_of_val_eq h))

theorem lexLe_total (a b : List Char) : lexLe a b = true ∨ lexLe b a = true := by
  induction a generalizing b with
  | nil => left; rfl
  | cons x xs ih =>
      cases b with
      | nil => right; rfl
      | cons y ys =>
          rcases Nat.lt_trichotomy x.toNat y.toNat with h | h | h
          · left
            simp [lexLe, h]
          · rcases ih ys with h' | h' <;> [left; right] <;>
              simp [lexLe, h, h', Nat.lt_irrefl]
          · right
            simp [lexLe, h]

theorem lexLe_antisymm (a b : List Char) (hab : lexLe a b = true)
    (hba : lexLe b a = true) : a = b := by
  induction a generalizing b with
  | nil =>
      cases b with
      | nil => rfl
      | cons y ys => simp [lexLe] at hba
  | cons x xs ih =>
      cases b with
      | nil => simp [lexLe] at hab
      | cons y ys =>
          by_cases h1 : x.toNat < y.toNat
          · simp [lexLe, h1, Nat.lt_asymm h1] at hba
          · by_cases h2 : y.toNat < x.toNat
            · simp [lexLe, h1, h2] at hab
            · have hx : x = y := char_eq_of_toNat_eq (Nat.le_antisymm
                (Nat.not_lt.mp h2) (Nat.not_lt.mp h1))
              subst hx
              simp [lexLe, h1, h2] at hab hba
              rw [ih ys hab hba]

theorem lexLe_trans (a b c : List Char) (hab : lexLe a b = true)
    (hbc : lexLe b c = true) : lexLe a c = true := by
  induction a generalizing b c with
  | nil => rfl
  | cons x xs ih =>
      cases b with
      | nil => simp [lexLe] at hab
      | cons y ys =>
          cases c with
          | nil => simp [lexLe] at hbc
          | cons z zs =>
              simp only [lexLe] at hab hbc ⊢
              by_cases h3 : x.toNat < z.toNat
              · simp [h3]
              · by_cases h1 : x.toNat < y.toNat
                · by_cases h2 : y.toNat < z.toNat
                  · omega
                  · by_cases h2' : z.toNat < y.toNat
                    · simp [h2, h2'] at hbc
                    · omega
                · by_cases h1' : y.toNat < x.toNat
                  · simp [h1, h1'] at hab
                  · by_cases h2 : y.toNat < z.toNat
                    · omega
                    · by_cases h2' : z.toNat < y.toNat
                      · simp [h2, h2'] at hbc
                      · have hxz : ¬ z.toNat < x.toNat := by omega
                        simp [h3, hxz, h1, h1', h2, h2'] at hab hbc ⊢
                        exact ih ys zs hab hbc

theorem listLeads_length (p s : List Char) (h : listLeads p s = true) :
    p.length ≤ s.length := by
  induction p generalizing s with
  | nil => simp
  | cons x xs ih =>
      cases s with
      | nil => simp [listLeads] at h
      | cons y ys =>
          simp only [listLeads, Bool.and_eq_true, decide_eq_true_eq] at h
          simpa using ih ys h.2

theorem listLeads_refl (l : List Char) : listLeads l l = true := by
  induction l with
  | nil => rfl
  | cons x xs ih => simp [listLeads, ih]

theorem listLeads_comparable (a b r : List Char) (ha : listLeads a r = true)
    (hb : listLeads b r = true) :
    listLeads a b = true ∨ listLeads b a = true := by
  induction r generalizing a b with
  | nil =>
      cases a with
      | nil => left; rfl
      | cons x xs => simp [listLeads] at ha
  | cons y ys ih =>
      cases a with
      | nil => left; rfl
      | cons x xs =>
          cases b with
          | nil => right; rfl
          | cons z zs =>
              simp only [listLeads, Bool.and_eq_true, decide_eq_true_eq] at ha hb
              obtain ⟨rfl, ha'⟩ := ha
              obtain ⟨rfl, hb'⟩ := hb
              rcases ih xs zs ha' hb' with h | h <;> [left; right] <;>
                simp [listLeads, h]

theorem lexLe_of_listLeads (a b : List Char) (h : listLeads a b = true) :
    lexLe a b = true := by
  induction a generalizing b with
  | nil => rfl
  | cons x xs ih =>
      cases b with
      | nil => simp [listLeads] at h
      | cons y ys =>
          simp only [listLeads, Bool.and_eq_true, decide_eq_true_eq] at h
          obtain ⟨rfl, h'⟩ := h
          simp [lexLe, ih ys h']

/-- Among two prefixes of the same string, the lexicographically larger one
is the longer one. -/
theorem length_le_of_leads_of_le (k' k r : List Char)
    (h1 : listLeads k' r = true) (h2 : listLeads k r = true)
    (hle : lexLe k' k = true) : k'.length ≤ k.length := by
  rcases listLeads_comparable k' k r h1 h2 with h | h
  · exact listLeads_length _ _ h
  · have := lexLe_antisymm k' k hle (lexLe_of_listLeads _ _ h)
    simp [this]

/-! ### Insertion sort facts (the JS `sort()` model) -/

theorem mem_insertLe (x y : String) (l : List String) :
    x ∈ insertLe y l ↔ x = y ∨ x ∈ l := by
  induction l with
  | nil => simp [insertLe]
  | cons z zs ih =>
      by_cases h : jsLe y z
      · simp [insertLe, h]
      · simp [insertLe, h, ih]
        tauto

theorem mem_sortJs (x : String) (l : List String) : x ∈ sortJs l ↔ x ∈ l := by
  induction l with
  | nil => simp [sortJs]
  | cons y ys ih =>
      simp only [sortJs, List.foldr_cons] at *
      rw [mem_insertLe, ih, List.mem_cons]

theorem sorted_insertLe (x : String) (l : List String)
    (h : l.Pairwise (fun a b => jsLe a b = true)) :
    (insertLe x l).Pairwise (fun a b => jsLe a b = true) := by
  induction l with
  | nil => simp [insertLe]
  | cons y ys ih =>
      rcases List.pairwise_cons.mp h with ⟨hy, hys⟩
      by_cases hxy : jsLe x y
      · rw [insertLe, if_pos hxy]
        refine List.pairwise_cons.mpr ⟨?_, h⟩
        intro b hb
        rcases List.mem_cons.mp hb with rfl | hb'
        · exact hxy
        · exact lexLe_trans _ _ _ hxy (hy b hb')
      · rw [insertLe, if_neg hxy]
        refine List.pairwise_cons.mpr ⟨?_, ih hys⟩
        intro b hb
        rcases (mem_insertLe b x ys).mp hb with hbx | hb'
        · rw [hbx]
          rcases lexLe_total (String.data x) (String.data y) with h' | h'
          · exact absurd h' hxy
          · exact h'
        · exact hy b hb'

theorem sorted_sortJs (l : List String) :
    (sortJs l).Pairwise (fun a b => jsLe a b = true) := by
  induction l with
  | nil => simp [sortJs]
  | cons y ys ih => exact sorted_insertLe y (sortJs ys) ih

/-- `find?` over a weakly descending list returns the largest element
satisfying the test. -/
theorem find_desc_spec (r : String) (l : List String)
    (hsort : l.Pairwise (fun a b => jsLe b a = true)) :
    (∀ k, l.find? (fun c => jsStartsWith r c) = some k →
      k ∈ l ∧ jsStartsWith r k = true
        ∧ ∀ k' ∈ l, jsStartsWith r k' = true → jsLe k' k = true)
    ∧ (l.find? (fun c => jsStartsWith r c) = none →
        ∀ k' ∈ l, jsStartsWith r k' = false) := by
  induction l with
  | nil => exact ⟨fun _ hk => (nomatch hk), fun _ _ hk' => (nomatch hk')⟩
  | cons y ys ih =>
      rcases List.pairwise_cons.mp hsort with ⟨hy, hys⟩
      by_cases hhead : jsStartsWith r y = true
      · refine ⟨fun k hk => ?_, fun hnone => ?_⟩
        · rw [List.find?_cons_of_pos _ hhead] at hk
          cases hk
          refine ⟨by simp, hhead, fun k' hk' _ => ?_⟩
          rcases List.mem_cons.mp hk' with rfl | hmem
          · exact lexLe_of_listLeads _ _ (listLeads_refl _)
          · exact hy k' hmem
        · rw [List.find?_cons_of_pos _ hhead] at hnone
          cases hnone
      · have hhead' : ¬ (jsStartsWith r y = true) := hhead
        refine ⟨fun k hk => ?_, fun hnone => ?_⟩
        · rw [List.find?_cons_of_neg _ (by simpa using hhead')] at hk
          obtain ⟨hmem, hlead, hmax⟩ := (ih hys).1 k hk
          refine ⟨by simp [hmem], hlead, fun k' hk' hk'lead => ?_⟩
          rcases List.mem_cons.mp hk' with rfl | hmem'
          · exact absurd hk'lead hhead'
          · exact hmax k' hmem' hk'lead
        · rw [List.find?_cons_of_neg _ (by simpa using hhead')] at hnone
          intro k' hk'
          rcases List.mem_cons.mp hk' with rfl | hmem'
          · simpa using hhead'
          · exact (ih hys).2 hnone k' hmem'

theorem sorted_desc_reverse_sortJs (l : List String) :
    ((sortJs l).reverse).Pairwise (fun a b => jsLe b a = true) :=
  List.pairwise_reverse.mpr (sorted_sortJs l)

/-! ### Claim C1 — resolution order of `findAuthByAgent` -/

/-- C1: for a principal present in the by-agent index, `findAuthByAgent`
returns the Direct (`accessTo`) permission whose resource URL equals the
query exactly whenever one exists; only otherwise does it consult the
principal's Inherited (`default`) permissions, and there it returns an entry
whose key is a string prefix of the queried resource and is both the longest
and the reverse-lexicographically largest among all default keys that are
prefixes of the query — and it returns nothing when no default key is a
prefix. -/
theorem claim_C1_findAuthByAgent_resolution (s : PermissionSet) (w r : String)
    (byType : JsObj String (JsObj String Nat))
    (hw : aGet s.authsByAgents w = some byType) :
    (∀ i, (aGet byType aclC.ACCESS_TO).bind (fun m => aGet m r) = some i →
        s.findAuthByAgent w r AGENT_INDEX = some i)
    ∧ ((aGet byType aclC.ACCESS_TO).bind (fun m => aGet m r) = none →
        (aGet byType aclC.DEFAULT = none →
            s.findAuthByAgent w r AGENT_INDEX = none)
        ∧ ∀ dflt, aGet byType aclC.DEFAULT = some dflt →
            (∀ i, s.findAuthByAgent w r AGENT_INDEX = some i →
                ∃ k, aGet dflt k = some i ∧ jsStartsWith r k = true
                  ∧ ∀ k' ∈ aKeys dflt, jsStartsWith r k' = true →
                      (k'.length ≤ k.length ∧ jsLe k' k = true))
            ∧ (s.findAuthByAgent w r AGENT_INDEX = none →
                ∀ k' ∈ aKeys dflt, jsStartsWith r k' = false)) := by
  have hne : ¬ (AGENT_INDEX = GROUP_INDEX) := by decide
  refine ⟨?_, ?_⟩
  · intro i hi
    simp only [PermissionSet.findAuthByAgent, if_neg hne, hw, hi]
  · intro hnone
    refine ⟨?_, ?_⟩
    · intro hdef
      simp only [PermissionSet.findAuthByAgent, if_neg hne, hw, hnone, hdef]
    · intro dflt hdef
      constructor
      · intro i hfind
        simp only [PermissionSet.findAuthByAgent, if_neg hne, hw, hnone, hdef] at hfind
        cases hexact : aGet dflt r with
        | some j =>
            rw [hexact] at hfind
            cases hfind
            refine ⟨r, hexact, listLeads_refl _, ?_⟩
            intro k' hk' hlead
            exact ⟨listLeads_length _ _ hlead, lexLe_of_listLeads _ _ hlead⟩
        | none =>
            rw [hexact] at hfind
            cases hscan : ((sortJs (aKeys dflt)).reverse).find?
                (fun c => jsStartsWith r c) with
            | none =>
                rw [hscan] at hfind
                cases hfind
            | some k =>
                rw [hscan] at hfind
                obtain ⟨hkmem, hklead, hkmax⟩ :=
                  (find_desc_spec r _ (sorted_desc_reverse_sortJs (aKeys dflt))).1 k hscan
                refine ⟨k, hfind, hklead, ?_⟩
                intro k' hk' hlead
                have hk'dm : k' ∈ (sortJs (aKeys dflt)).reverse := by
                  rw [List.mem_reverse, mem_sortJs]
                  exact hk'
                have hle := hkmax k' hk'dm hlead
                exact ⟨length_le_of_leads_of_le (String.data k') (String.data k)
                  (String.data r) hlead hklead hle, hle⟩
      · intro hfind
        simp only [PermissionSet.findAuthByAgent, if_neg hne, hw, hnone, hdef] at hfind
        cases hexact : aGet dflt r with
        | some j =>
            rw [hexact] at hfind
            cases hfind
        | none =>
            rw [hexact] at hfind
            cases hscan : ((sortJs (aKeys dflt)).reverse).find?
                (fun c => jsStartsWith r c) with
            | none =>
                intro k' hk'
                have hk'dm : k' ∈ (sortJs (aKeys dflt)).reverse := by
                  rw [List.mem_reverse, mem_sortJs]
                  exact hk'
                exact (find_desc_spec r _
                  (sorted_desc_reverse_sortJs (aKeys dflt))).2 hscan k' hk'dm
            | some k =>
                rw [hscan] at hfind
                obtain ⟨hkmem, hklead, -⟩ :=
                  (find_desc_spec r _ (sorted_desc_reverse_sortJs (aKeys dflt))).1 k hscan
                have hkkeys : k ∈ aKeys dflt := by
                  rw [← mem_sortJs k (aKeys dflt), ← List.mem_reverse]
                  exact hkmem
                have := (mem_aKeys_iff dflt k).mp hkkeys
                rw [show aGet dflt k = none from hfind] at this
                cases this

/-- Witness for C1 at a concrete index: a direct grant on `/docs/file1` and
inherited grants on `/` and `/docs/`, queried at `/docs/file2`. -/
theorem claim_C1_witness :
    (aGet ({ PermissionSet.make (some "https://example.com/") none true false none
        none with
        authsByAgents :=
          [("https://alice.example.com/#me",
            [(aclC.ACCESS_TO, [("https://example.com/docs/file1", 1)]),
             (aclC.DEFAULT,
              [("https://example.com/", 2), ("https://example.com/docs/", 3)])])] }
      : PermissionSet).authsByAgents "https://alice.example.com/#me"
      = some [(aclC.ACCESS_TO, [("https://example.com/docs/file1", 1)]),
              (aclC.DEFAULT,
               [("https://example.com/", 2), ("https://example.com/docs/", 3)])])
    ∧ PermissionSet.findAuthByAgent
        { PermissionSet.make (some "https://example.com/") none true false none none with
          authsByAgents :=
            [("https://alice.example.com/#me",
              [(aclC.ACCESS_TO, [("https://example.com/docs/file1", 1)]),
               (aclC.DEFAULT,
                [("https://example.com/", 2), ("https://example.com/docs/", 3)])])] }
        "https://alice.example.com/#me" "https://example.com/docs/file2" AGENT_INDEX
      = some 3
    ∧ ∃ k, aGet [("https://example.com/", 2), ("https://example.com/docs/", 3)] k
          = some 3
        ∧ jsStartsWith "https://example.com/docs/file2" k = true
        ∧ ∀ k' ∈ aKeys [("https://example.com/", (2 : Nat)),
              ("https://example.com/docs/", 3)],
            jsStartsWith "https://example.com/docs/file2" k' = true →
              (k'.length ≤ k.length
                ∧ jsLe k' k = true) := by
  refine ⟨rfl, rfl, ?_⟩
  exact ((claim_C1_findAuthByAgent_resolution
    { PermissionSet.make (some "https://example.com/") none true false none none with
      authsByAgents :=
        [("https://alice.example.com/#me",
          [(aclC.ACCESS_TO, [("https://example.com/docs/file1", 1)]),
           (aclC.DEFAULT,
            [("https://example.com/", 2), ("https://example.com/docs/", 3)])])] }
    "https://alice.example.com/#me" "https://example.com/docs/file2"
    [(aclC.ACCESS_TO, [("https://example.com/docs/file1", 1)]),
     (aclC.DEFAULT, [("https://example.com/", 2), ("https://example.com/docs/", 3)])]
    rfl).2 rfl).2
    [("https://example.com/", 2), ("https://example.com/docs/", 3)] rfl |>.1 3 rfl

/-! ### Claim C2 — control implies virtual permissions on the policy document -/

theorem foldl_addOriginSingle_frame (l : List String) (p : Permission) :
    ∃ og, l.foldl Permission.addOriginSingle p = { p with originsAllowed := og } := by
  induction l generalizing p with
  | nil => exact ⟨p.originsAllowed, rfl⟩
  | cons a as ih =>
      obtain ⟨og, hog⟩ := ih (p.addOriginSingle a)
      exact ⟨og, by simpa [Permission.addOriginSingle] using hog⟩

theorem le_foldr_max (l : List Nat) (k : Nat) (h : k ∈ l) :
    k ≤ l.foldr max 0 := by
  induction l with
  | nil => cases h
  | cons a as ih =>
      rcases List.mem_cons.mp h with rfl | h'
      · exact Nat.le_max_left _ _
      · exact Nat.le_trans (ih h') (Nat.le_max_right _ _)

theorem aGet_freshId (st : Store) : aGet st st.freshId = none := by
  cases hg : aGet st st.freshId with
  | none => rfl
  | some p =>
      have hmem : st.freshId ∈ aKeys st :=
        (mem_aKeys_iff st st.freshId).mpr (by rw [hg]; rfl)
      have := le_foldr_max (aKeys st) st.freshId hmem
      simp [Store.freshId] at this

theorem mem_aKeys_aSet_self [DecidableEq κ] (m : JsObj κ α) (k : κ) (v : α) :
    k ∈ aKeys (aSet m k v) :=
  (mem_aKeys_iff _ _).mpr (by rw [aGet_aSet_self]; rfl)

theorem ne_freshId_of_mem (st : Store) (k : Nat) (h : k ∈ aKeys st) :
    k ≠ st.freshId := by
  intro he
  have := le_foldr_max (aKeys st) k h
  rw [he] at this
  simp [Store.freshId] at this

theorem strEq_of_data {a b : String} (h : a.data = b.data) : a = b := by
  cases a
  cases b
  exact congrArg String.mk h

theorem data_append (a b : String) : (a ++ b).data = a.data ++ b.data := by
  cases a
  cases b
  rfl

theorem hashFragmentFor_mid_inj (w t u1 u2 : String)
    (h : hashFragmentFor w u1 t = hashFragmentFor w u2 t) : u1 = u2 := by
  have hd : (((w.data ++ "-".data) ++ u1.data) ++ "-".data) ++ t.data
      = (((w.data ++ "-".data) ++ u2.data) ++ "-".data) ++ t.data := by
    simpa [hashFragmentFor, data_append] using congrArg String.data h
  have h1 := List.append_cancel_right hd
  have h2 := List.append_cancel_right h1
  exact strEq_of_data (List.append_cancel_left h2)

/-- One `addAuthorization` step for a permission that carries no Control
obligation and no group principal, landing in fresh collection and index
slots: it allocates the object and links it from both the collection and the
by-agent index. -/
theorem addAuthorizationF_fresh_plain (fuel : Nat) (s : PermissionSet)
    (auth : Permission) (k wk rk : String)
    (hk : auth.hashFragment = Except.ok k)
    (hwk : jsStrOrNull auth.webId = wk)
    (hrk : jsStrOrUndef auth.resourceUrl = rk)
    (hcoll : aGet s.authorizations k = none)
    (hslot : aGet ((aGet ((aGet s.authsByAgents wk).getD [])
        auth.accessType).getD []) rk = none)
    (hnoCtl : (!auth.virtual && auth.allowsControl) = false)
    (hnoGrp : (auth.isPublic || auth.isGroup) = false) :
    addAuthorizationF (fuel + 1) s auth = Except.ok
      { s with
        store := aSet s.store s.store.freshId auth,
        authorizations := aSet s.authorizations k s.store.freshId,
        authsByAgents :=
          aSet s.authsByAgents wk
            (aSet ((aGet s.authsByAgents wk).getD []) auth.accessType
              (aSet ((aGet ((aGet s.authsByAgents wk).getD [])
                  auth.accessType).getD []) rk s.store.freshId)) } := by
  have hget : aGet (aSet s.store s.store.freshId auth) s.store.freshId = some auth :=
    aGet_aSet_self _ _ _
  simp only [addAuthorizationF, hk, Store.alloc, hcoll, hnoCtl, Bool.false_eq_true,
    if_false, addAuthIndexSteps, indexInsert, Store.get, hget, Option.getD_some,
    hwk, hrk, hslot, hnoGrp]

/-- C2: adding (via `addPermission`) a non-virtual permission whose modes
include Control, for an agent principal, synthesizes a companion virtual
permission for the same principal scoped to `aclUrlFor(resourceUrl)` that
grants every access mode, and afterwards
`checkAccess(aclUrlFor(resourceUrl), principal, Write)` resolves to true.
The hypotheses pin the claim's context: no explicit grant targets the policy
document (`h3`, `h6`, `h8`), the principal has no other grant on the resource
itself (`h5`, `h7`), the policy-document URL is a distinct non-empty URL, and
origin enforcement is not in effect. -/
theorem claim_C2_control_implies_acl_access (s : PermissionSet)
    (w r aclU : String) (modes origins : List String) (env : Option FetchEnv)
    (hw : w.isEmpty = false)
    (hmailto : jsStartsWith w "mailto:" = false)
    (hev : w ≠ aclC.EVERYONE)
    (hr : s.resourceUrl = some r)
    (hrt : r.isEmpty = false)
    (hctl : aclC.CONTROL ∈ modes)
    (hAcl : s.aclUrlForF r = aclU)
    (hAclT : aclU.isEmpty = false)
    (hAclNe : aclU ≠ r)
    (h5 : aGet s.authorizations (hashFragmentFor w r
      (if s.isAuthInherited then aclC.DEFAULT else aclC.ACCESS_TO)) = none)
    (h6 : aGet s.authorizations (hashFragmentFor w aclU
      (if s.isAuthInherited then aclC.DEFAULT else aclC.ACCESS_TO)) = none)
    (h3 : aGet ((aGet ((aGet s.authsByAgents w).getD [])
      aclC.ACCESS_TO).getD []) aclU = none)
    (h7 : aGet ((aGet ((aGet s.authsByAgents w).getD [])
      (if s.isAuthInherited then aclC.DEFAULT else aclC.ACCESS_TO)).getD []) r = none)
    (h8 : aGet ((aGet ((aGet s.authsByAgents w).getD [])
      (if s.isAuthInherited then aclC.DEFAULT else aclC.ACCESS_TO)).getD []) aclU = none)
    (hOrigin : s.originTrivial = true) :
    ∃ s', s.addPermission w modes origins = Except.ok s'
      ∧ (∃ cref perm,
          aGet s'.authorizations (hashFragmentFor w aclU
            (if s.isAuthInherited then aclC.DEFAULT else aclC.ACCESS_TO)) = some cref
          ∧ aGet s'.store cref = some perm
          ∧ perm.virtual = true
          ∧ perm.agent = some w
          ∧ perm.resourceUrl = some aclU
          ∧ perm.allowsRead = true ∧ perm.allowsWrite = true
          ∧ perm.allowsAppend = true ∧ perm.allowsControl = true)
      ∧ s'.checkAccess aclU w aclC.WRITE env = Except.ok (true, s') := by
  set aT := if s.isAuthInherited then aclC.DEFAULT else aclC.ACCESS_TO with haTdef
  set A1 : Permission :=
    { accessModes := [], accessType := aT, agent := some w, group := none,
      inherited := s.isAuthInherited, mailTo := [], originsAllowed := [],
      resourceUrl := some r, virtual := false } with hA1def
  have hsetAgent : (Permission.make (some r) s.isAuthInherited).setAgent w
      = Except.ok A1 := by
    simp [Permission.setAgent, Permission.make, hev, truthy, hmailto, hA1def]
  obtain ⟨am, ham⟩ := foldl_addModeSingle_frame modes A1
  obtain ⟨og, hog⟩ := foldl_addOriginSingle_frame origins (A1.addMode modes)
  set A : Permission :=
    { accessModes := am, accessType := aT, agent := some w, group := none,
      inherited := s.isAuthInherited, mailTo := [], originsAllowed := og,
      resourceUrl := some r, virtual := false } with hAdef
  have ham' : A1.addMode modes = { A1 with accessModes := am } := ham
  have hog' : (A1.addMode modes).addOrigin origins
      = { A1.addMode modes with originsAllowed := og } := hog
  have hAeq : (A1.addMode modes).addOrigin origins = A := by
    rw [hog', ham']
  have hamGet : ∀ m, aGet am m = if m ∈ modes then some true else none := by
    intro m
    have hfold := foldl_addModeSingle_accessModes modes A1 m
    rw [ham] at hfold
    simpa [hA1def, aGet] using hfold
  have hHashA : A.hashFragment = Except.ok (hashFragmentFor w r aT) := by
    simp [hAdef, Permission.hashFragment, truthy, hrt, Permission.webId, jsOr, hw,
      jsStrOrNull]
  have hCtl : (!A.virtual && A.allowsControl) = true := by
    simp [hAdef, Permission.allowsControl, hamGet, hctl]
  have hApub : (A.isPublic || A.isGroup) = false := by
    simp [hAdef, Permission.isPublic, Permission.isGroup, truthy]
  have hargR : A.resourceUrl.getD "" = r := by simp [hAdef]
  obtain ⟨amI, hamI⟩ := foldl_addModeSingle_frame aclC.ALL_MODES
    { A with resourceUrl := some aclU, virtual := true }
  set Ip : Permission :=
    { accessModes := amI, accessType := aT, agent := some w, group := none,
      inherited := s.isAuthInherited, mailTo := [], originsAllowed := og,
      resourceUrl := some aclU, virtual := true } with hIpdef
  have hIeq : ({ A with resourceUrl := some aclU, virtual := true }
      : Permission).addMode aclC.ALL_MODES = Ip := hamI
  have hamIGet : ∀ m, aGet amI m =
      if m ∈ aclC.ALL_MODES then some true else aGet am m := by
    intro m
    have hfold := foldl_addModeSingle_accessModes aclC.ALL_MODES
      { A with resourceUrl := some aclU, virtual := true } m
    rw [hamI] at hfold
    simpa [hIpdef, hAdef] using hfold
  have hIWrite : aGet amI aclC.WRITE = some true := by
    rw [hamIGet, if_pos (by decide)]
  have hIRead : aGet amI aclC.READ = some true := by
    rw [hamIGet, if_pos (by decide)]
  have hICtl : aGet amI aclC.CONTROL = some true := by
    rw [hamIGet, if_pos (by decide)]
  have hHashI : Ip.hashFragment = Except.ok (hashFragmentFor w aclU aT) := by
    simp [hIpdef, Permission.hashFragment, truthy, hAclT, Permission.webId, jsOr,
      hw, jsStrOrNull]
  have hkne : hashFragmentFor w aclU aT ≠ hashFragmentFor w r aT :=
    fun hh => hAclNe (hashFragmentFor_mid_inj w aT aclU r hh)
  have hIwk : jsStrOrNull Ip.webId = w := by
    simp [hIpdef, Permission.webId, jsOr, truthy, hw, jsStrOrNull]
  have hIrk : jsStrOrUndef Ip.resourceUrl = aclU := by simp [hIpdef, jsStrOrUndef]
  have hIat : Ip.accessType = aT := by simp [hIpdef]
  have hIctlF : (!Ip.virtual && Ip.allowsControl) = false := by simp [hIpdef]
  have hIgrp : (Ip.isPublic || Ip.isGroup) = false := by
    simp [hIpdef, Permission.isPublic, Permission.isGroup, truthy]
  have hAwk : jsStrOrNull A.webId = w := by
    simp [hAdef, Permission.webId, jsOr, truthy, hw, jsStrOrNull]
  have hArk : jsStrOrUndef A.resourceUrl = r := by simp [hAdef, jsStrOrUndef]
  have hAat : A.accessType = aT := by simp [hAdef]
  have hstep1 : s.addPermission w modes origins = addAuthorizationF 2 s A := by
    rw [PermissionSet.addPermission, hr]
    simp only [hw, truthy, hrt, Bool.not_false, Bool.not_true, Bool.false_eq_true,
      if_false, if_true, hsetAgent, hAeq, PermissionSet.addAuthorization]
  have h6' : aGet (aSet s.authorizations (hashFragmentFor w r aT) s.store.freshId)
      (hashFragmentFor w aclU aT) = none := by
    rw [aGet_aSet_ne _ _ _ _ hkne]
    exact h6
  have hstget0 : aGet (aSet (aSet s.store s.store.freshId A)
      (Store.freshId (aSet s.store s.store.freshId A)) Ip) s.store.freshId
      = some A := by
    rw [aGet_aSet_ne _ _ _ _ (ne_freshId_of_mem _ _ (mem_aKeys_aSet_self _ _ _))]
    exact aGet_aSet_self _ _ _
  have hm2r : aGet (aSet ((aGet ((aGet s.authsByAgents w).getD []) aT).getD [])
      aclU (Store.freshId (aSet s.store s.store.freshId A))) r = none := by
    rw [aGet_aSet_ne _ _ _ _ (Ne.symm hAclNe)]
    exact h7
  have hunf1 : ∀ (t : PermissionSet) (a : Permission),
      addAuthorizationF 1 t a = addAuthorizationF (0 + 1) t a := fun _ _ => rfl
  have hstep2 : addAuthorizationF 2 s A = Except.ok
      { s with
        store := aSet (aSet s.store s.store.freshId A)
          (Store.freshId (aSet s.store s.store.freshId A)) Ip,
        authorizations := aSet
          (aSet s.authorizations (hashFragmentFor w r aT) s.store.freshId)
          (hashFragmentFor w aclU aT)
          (Store.freshId (aSet s.store s.store.freshId A)),
        authsByAgents := aSet
          (aSet s.authsByAgents w
            (aSet ((aGet s.authsByAgents w).getD []) aT
              (aSet ((aGet ((aGet s.authsByAgents w).getD []) aT).getD []) aclU
                (Store.freshId (aSet s.store s.store.freshId A)))))
          w
          (aSet (aSet ((aGet s.authsByAgents w).getD []) aT
              (aSet ((aGet ((aGet s.authsByAgents w).getD []) aT).getD []) aclU
                (Store.freshId (aSet s.store s.store.freshId A))))
            aT
            (aSet (aSet ((aGet ((aGet s.authsByAgents w).getD []) aT).getD []) aclU
                (Store.freshId (aSet s.store s.store.freshId A)))
              r s.store.freshId)) } := by
    rw [show (2 : Nat) = 1 + 1 from rfl]
    simp only [addAuthorizationF, hHashA, Store.alloc, h5, hCtl, Permission.clone,
      hargR, hAcl, hIeq, hunf1, hHashI, h6', hIctlF, addAuthIndexSteps, indexInsert,
      Store.get, aGet_aSet_self, Option.getD_some, hIwk, hIrk, hIat, h8, hIgrp,
      hstget0, hAwk, hArk, hAat, hm2r, hApub, Bool.false_eq_true, if_false, if_true]
  set ref0 := s.store.freshId with href0
  set st1 := aSet s.store ref0 A with hst1
  set ref1 := Store.freshId st1 with href1
  set st2 := aSet st1 ref1 Ip with hst2
  set m1 := (aGet s.authsByAgents w).getD [] with hm1
  set m2 := (aGet m1 aT).getD [] with hm2
  set X1 := aSet m2 aclU ref1 with hX1
  set M1 := aSet m1 aT X1 with hM1
  set Z := aSet X1 r ref0 with hZ
  set Y := aSet M1 aT Z with hY
  set idx1 := aSet s.authsByAgents w M1 with hidx1
  set idx2 := aSet idx1 w Y with hidx2
  set coll1 := aSet s.authorizations (hashFragmentFor w r aT) ref0 with hcoll1
  set coll2 := aSet coll1 (hashFragmentFor w aclU aT) ref1 with hcoll2
  set sF : PermissionSet :=
    { s with store := st2, authorizations := coll2, authsByAgents := idx2 } with hsF
  have hne2 : ¬ (AGENT_INDEX = GROUP_INDEX) := by decide
  have hgetY : aGet idx2 w = some Y := by
    rw [hidx2]
    exact aGet_aSet_self _ _ _
  have hZacl : aGet Z aclU = some ref1 := by
    rw [hZ, aGet_aSet_ne _ _ _ _ hAclNe, hX1]
    exact aGet_aSet_self _ _ _
  have hfindBig : sF.findAuthByAgent w aclU AGENT_INDEX = some ref1 := by
    by_cases hinh : s.isAuthInherited = true
    · have haT2 : aT = aclC.DEFAULT := by rw [haTdef, if_pos hinh]
      have hYacc : aGet Y aclC.ACCESS_TO = aGet m1 aclC.ACCESS_TO := by
        rw [hY, haT2,
          aGet_aSet_ne _ _ _ _ (by decide : aclC.ACCESS_TO ≠ aclC.DEFAULT), hM1,
          haT2, aGet_aSet_ne _ _ _ _ (by decide : aclC.ACCESS_TO ≠ aclC.DEFAULT)]
      have hYdef : aGet Y aclC.DEFAULT = some Z := by
        rw [hY, haT2]
        exact aGet_aSet_self _ _ _
      have haccN : (aGet Y aclC.ACCESS_TO).bind (fun m => aGet m aclU) = none := by
        rw [hYacc]
        cases hacc : aGet m1 aclC.ACCESS_TO with
        | none => rfl
        | some m2a =>
            have h3' := h3
            rw [hacc] at h3'
            simpa using h3'
      simp only [PermissionSet.findAuthByAgent, if_neg hne2, hsF, hgetY, haccN,
        hYdef, hZacl]
    · have haT2 : aT = aclC.ACCESS_TO := by rw [haTdef, if_neg hinh]
      have hYacc : aGet Y aclC.ACCESS_TO = some Z := by
        rw [hY, haT2]
        exact aGet_aSet_self _ _ _
      have hacc : (aGet Y aclC.ACCESS_TO).bind (fun m => aGet m aclU) = some ref1 := by
        rw [hYacc]
        simpa using hZacl
      simp only [PermissionSet.findAuthByAgent, if_neg hne2, hsF, hgetY, hacc]
  have hmodeI : Ip.allowsMode aclC.WRITE = true := by
    simp only [Permission.allowsMode]
    rw [show normalizeMode aclC.WRITE = aclC.WRITE from rfl,
      if_neg (by decide : ¬ (aclC.WRITE = aclC.APPEND))]
    simp [hIpdef, hIWrite]
  have hstoreI : Store.get sF.store ref1 = Ip := by
    simp [hsF, Store.get, hst2, aGet_aSet_self]
  have hcfa : sF.checkAccessForAgent aclU w aclC.WRITE = true := by
    simp only [PermissionSet.checkAccessForAgent, hfindBig, hstoreI, hmodeI,
      PermissionSet.checkOrigin, (show sF.originTrivial = true from hOrigin),
      if_true, Bool.and_true]
  have hfinal : sF.checkAccess aclU w aclC.WRITE env = Except.ok (true, sF) := by
    by_cases hpub : sF.allowsPublic aclC.WRITE aclU
    · simp [PermissionSet.checkAccess, hpub]
    · simp [PermissionSet.checkAccess, hpub, hcfa]
  refine ⟨sF, ?_, ⟨ref1, Ip, ?_, ?_, ?_, ?_, ?_, ?_, ?_, ?_, ?_⟩, hfinal⟩
  · rw [hstep1]
    exact hstep2
  · rw [hsF]
    simp only [hcoll2]
    exact aGet_aSet_self _ _ _
  · rw [hsF]
    simp only [hst2]
    exact aGet_aSet_self _ _ _
  · simp [hIpdef]
  · simp [hIpdef]
  · simp [hIpdef]
  · simp [Permission.allowsRead, hIpdef, hIRead]
  · simp [Permission.allowsWrite, hIpdef, hIWrite]
  · simp [Permission.allowsAppend, hIpdef, hIWrite]
  · simp [Permission.allowsControl, hIpdef, hICtl]

/-- Witness for C2: a Control grant for Alice on `file1` makes
`checkAccess('file1.acl', alice, Write)` resolve to true. -/
theorem claim_C2_witness :
    ((PermissionSet.make (some "https://example.com/docs/file1")
        (some "https://example.com/docs/file1.acl") false false none
        none).aclUrlForF "https://example.com/docs/file1"
      = "https://example.com/docs/file1.acl")
    ∧ ∃ s', (PermissionSet.make (some "https://example.com/docs/file1")
        (some "https://example.com/docs/file1.acl") false false none
        none).addPermission "https://alice.example.com/#me" [aclC.CONTROL] []
        = Except.ok s'
      ∧ s'.checkAccess "https://example.com/docs/file1.acl"
          "https://alice.example.com/#me" aclC.WRITE none = Except.ok (true, s') := by
  refine ⟨rfl, ?_⟩
  obtain ⟨s', hadd, -, hchk⟩ := claim_C2_control_implies_acl_access
    (PermissionSet.make (some "https://example.com/docs/file1")
      (some "https://example.com/docs/file1.acl") false false none none)
    "https://alice.example.com/#me" "https://example.com/docs/file1"
    "https://example.com/docs/file1.acl" [aclC.CONTROL] [] none
    rfl (by decide) (by decide) rfl rfl (by decide) rfl rfl (by decide)
    rfl rfl rfl rfl rfl rfl
  exact ⟨s', hadd, hchk⟩

end SolidPerms
